import Mathlib

/-!
A shallow embedding, in Lean 4, of the trust-processing core of the
`fedservice` OpenID-Federation implementation, together with theorems
settling a list of behavioural claims about it.

Each definition mirrors a specific Python function of the source tree
(`src/fedservice/...`); the source file and function are named in the
doc comment.  External collaborators (JOSE crypto, HTTP, the key-value
store) are abstracted exactly where the source delegates to them.
-/

namespace Fedservice

/-! ## Association lists

Python dicts are modelled as association lists looked up from the front. -/

/-- Dictionary lookup (`d.get(k)`). -/
def alookup {κ α : Type} [DecidableEq κ] : List (κ × α) → κ → Option α
  | [], _ => none
  | p :: rest, k => if p.1 = k then some p.2 else alookup rest k

/-- Dictionary update of an existing key (`d[k] = v` for a present key):
every binding of `k` is replaced, other bindings are untouched. -/
def assocSet {κ α : Type} [DecidableEq κ] : List (κ × α) → κ → α → List (κ × α)
  | [], _, _ => []
  | p :: rest, k, v => (if p.1 = k then (k, v) else p) :: assocSet rest k v

/-- Equality of `Except` values is decidable when it is for both
components; lets concrete runs of the fallible functions below be checked
by `decide`. -/
instance {ε α : Type} [DecidableEq ε] [DecidableEq α] :
    DecidableEq (Except ε α) := fun x y =>
  match x, y with
  | Except.error e, Except.error f =>
      if h : e = f then Decidable.isTrue (by rw [h])
      else Decidable.isFalse (by intro hh; injection hh with h2; exact h h2)
  | Except.ok a, Except.ok b =>
      if h : a = b then Decidable.isTrue (by rw [h])
      else Decidable.isFalse (by intro hh; injection hh with h2; exact h h2)
  | Except.error _, Except.ok _ =>
      Decidable.isFalse (fun hh => Except.noConfusion hh)
  | Except.ok _, Except.error _ =>
      Decidable.isFalse (fun hh => Except.noConfusion hh)

/-! ## Keys and the key jar

Models cryptojwt keys as the triple the source compares keys by
(`kty`, `use`, `kid`), and the key jar as an association list from an
issuer id to the list of keys installed for that issuer. -/

/-- A JSON Web Key, reduced to the fields key comparison is based on. -/
structure JWK where
  kty : String
  use : String
  kid : String
  deriving DecidableEq, Repr

/-- A key jar: issuer id mapped to the keys installed for that issuer. -/
abbrev KeyJar := List (String × List JWK)

/-- Models cryptojwt `KeyJar.get_issuer_keys`: the keys stored for an issuer;
`none` models the `KeyError` the source catches when the issuer is unknown. -/
def getIssuerKeys (kj : KeyJar) (sub : String) : Option (List JWK) :=
  alookup kj sub

/-- The keys a key jar holds for a subject (empty when the subject is unknown). -/
def keysOf (kj : KeyJar) (sub : String) : List JWK :=
  (getIssuerKeys kj sub).getD []

/-- Embeds the keyring-update block of
`TrustChainVerifier._verify_trust_chain` (src/fedservice/entity/function/verifier.py,
lines 88-103): if the subject is unknown the whole bundle is installed,
otherwise only the keys not already present for the subject are appended;
when no key is new the jar is left untouched. -/
def addKeyBundle (kj : KeyJar) (sub : String) (kb : List JWK) : KeyJar :=
  match getIssuerKeys kj sub with
  | none => (sub, kb) :: kj
  | some old =>
      if (kb.filter (fun k => ¬ k ∈ old)).isEmpty then kj
      else kj.map (fun p =>
        if p.1 = sub then (p.1, p.2 ++ kb.filter (fun k => ¬ k ∈ old)) else p)

/-! ## FileDB (src/fedservice/trust_mark_entity/__init__.py)

The per-trust-mark-type append-only file of issued trust marks.  A line
holds the JSON of a trust-mark info record; `find` scans the lines last
(newest) first. -/

/-- One line of a `FileDB` file: the fields `find` looks at. -/
structure TMInfo where
  sub : String
  iat : Int
  exp : Option Int
  deriving DecidableEq, Repr

/-- Embeds `FileDB._match`: the subject must agree, and when `iat` is truthy
(non-zero) it must agree as well. -/
def matchTM (sub : String) (iat : Int) (tmi : TMInfo) : Bool :=
  if sub == tmi.sub then
    if iat != 0 then iat == tmi.iat else true
  else false

/-- Whether a `FileDB` line is expired at `now` (`now > exp`; lines without
an `exp` never expire). -/
def tmExpired (now : Int) (tmi : TMInfo) : Bool :=
  match tmi.exp with
  | some e => now > e
  | none => false

/-- The scanning loop of `FileDB.find`: for each line, an expired line makes
the whole call return `False` at once; otherwise a matching line returns
`True`; otherwise the scan continues. -/
def findScan (now : Int) (sub : String) (iat : Int) : List TMInfo → Bool
  | [] => false
  | tmi :: rest =>
      if tmExpired now tmi then false
      else if matchTM sub iat tmi then true
      else findScan now sub iat rest

/-- Embeds `FileDB.find` (src/fedservice/trust_mark_entity/__init__.py,
lines 33-46): the file lines are stored oldest first (`add` appends), and
`find` iterates over `reversed(list(fp))`, i.e. newest first. -/
def fileDBfind (now : Int) (lines : List TMInfo) (sub : String) (iat : Int) : Bool :=
  findScan now sub iat lines.reverse

/-! ## Trust-chain expiration (src/fedservice/entity/function/verifier.py) -/

/-- The `naming_constraints` member of a `constraints` claim: optional
lists of permitted and excluded URI prefixes. -/
structure SConstraintsNaming where
  permitted : Option (List String)
  excluded : Option (List String)
  deriving DecidableEq, Repr

/-- The `constraints` claim of an entity statement. -/
structure SConstraints where
  max_path_length : Option Int
  naming_constraints : Option SConstraintsNaming
  deriving DecidableEq, Repr

/-- The decoded payload of a verified entity statement: the claims the
verifier and the constraint checker read. -/
structure EntityStatement where
  iss : String
  sub : String
  exp : Int
  jwks : Option (List JWK)
  constraints : Option SConstraints
  deriving DecidableEq, Repr

/-- The loop body of `TrustChainVerifier.trust_chain_expires_at`: a
non-negative running value is lowered by a smaller `exp`, a negative one
(the initial `-1`) is replaced outright. -/
def expStep (exp : Int) (st : EntityStatement) : Int :=
  if 0 ≤ exp then
    if st.exp < exp then st.exp else exp
  else st.exp

/-- Embeds `TrustChainVerifier.trust_chain_expires_at`
(src/fedservice/entity/function/verifier.py, lines 112-120): a running
value starting at `-1`, replaced by the first `exp` seen and thereafter
lowered by any smaller `exp`. -/
def trust_chain_expires_at (chain : List EntityStatement) : Int :=
  chain.foldl expStep (-1)

/-- The `TrustChain` object the verifier constructs. -/
structure TrustChainObj where
  exp : Int
  verified_chain : List EntityStatement
  anchor : String
  iss_path : List String
  deriving DecidableEq, Repr

/-- Embeds the per-chain construction in `TrustChainVerifier.__call__`
(src/fedservice/entity/function/verifier.py, lines 136-148): the chain
expiration is `trust_chain_expires_at`, the anchor is the issuer of the
first (trust-anchor) statement, and `iss_path` is the reversed issuer
list.  `__call__` only reaches this code with a non-empty verified chain;
on the unreachable empty input the anchor defaults to the empty string. -/
def mk_trust_chain (verified : List EntityStatement) : TrustChainObj :=
  { exp := trust_chain_expires_at verified
    verified_chain := verified
    anchor := ((verified.map (fun x => x.iss)).headD "")
    iss_path := (verified.map (fun x => x.iss)).reverse }

/-! ## Constraints (src/fedservice/entity_statement/constraints.py) -/

/-- Embeds `calculate_path_length` (src/fedservice/entity_statement/constraints.py,
lines 12-28).  `constraints` is the statement's `constraints` claim,
`current` the running path-length state and `assigned` whether an earlier
statement already carried a `max_path_length`. -/
def calculate_path_length (constraints : SConstraints) (current : Int) (assigned : Bool) :
    Int :=
  match constraints.max_path_length with
  | none => current - 1
  | some m =>
      if 0 ≤ m then
        if assigned then
          if current - 1 < m then -1 else m
        else m
      else -1

/-- The exceptions the naming-constraint machinery of constraints.py can
raise: the `ValueError` of `remove_scheme` (line 37) for a URL without an
`https://` / `http://` scheme, and the `KeyError` of `add_constraints`
(line 89) when the accumulated value of `permitted` / `excluded` is
truthy and the key is absent from a later statement's
`naming_constraints`. -/
inductive NamingExc where
  | valueError
  | keyError
  deriving DecidableEq, Repr

/-- Python `str.startswith`, over the character list of the strings. -/
def strStartsWith (s pre : String) : Bool :=
  pre.data.isPrefixOf s.data

/-- Python slicing `s[n:]`, over the character list of the string. -/
def strDrop (s : String) (n : Nat) : String :=
  String.mk (s.data.drop n)

/-- The accumulator loop of `str.split('.')`. -/
def splitDotAux : List Char → List Char → List String
  | [], acc => [String.mk acc.reverse]
  | c :: cs, acc =>
      if c = '.' then String.mk acc.reverse :: splitDotAux cs []
      else splitDotAux cs (c :: acc)

/-- Python `s.split('.')`: the segments between dots, empty segments
kept. -/
def splitOnDot (s : String) : List String :=
  splitDotAux s.data []

/-- Embeds `remove_scheme` (constraints.py, lines 31-37): strips a leading
`https://` or `http://` and raises `ValueError` for anything else. -/
def remove_scheme (url : String) : Except NamingExc String :=
  if strStartsWith url "https://" then Except.ok (strDrop url 8)
  else if strStartsWith url "http://" then Except.ok (strDrop url 7)
  else Except.error NamingExc.valueError

/-- The inner comparison loop of `more_specific`: walks the reversed label
lists in parallel; on the first differing pair the answer is whether the
shorter side ran into an empty label. -/
def msLoop : List (String × String) → Bool
  | [] => true
  | (x, y) :: rest => if x == y then msLoop rest else y == ""

/-- Embeds `more_specific` (constraints.py, lines 40-52): `a` is a longer,
more specific DNS-style suffix of `b`.  The two `remove_scheme` calls run
first, in source order, and their `ValueError` propagates. -/
def more_specific (a b : String) : Except NamingExc Bool :=
  match remove_scheme a with
  | Except.error e => Except.error e
  | Except.ok ar =>
      match remove_scheme b with
      | Except.error e => Except.error e
      | Except.ok br =>
          Except.ok
            (if ((splitOnDot br).reverse).length
                ≤ ((splitOnDot ar).reverse).length then
              msLoop (((splitOnDot ar).reverse).zip ((splitOnDot br).reverse))
            else false)

/-- The inner loop of `update_specs` for one old entry: the new entries
more specific than it, in order (exceptions from `more_specific`
propagate at the first offending pair). -/
def filterMS (newcs : List String) (o : String) : Except NamingExc (List String) :=
  match newcs with
  | [] => Except.ok []
  | n :: ns =>
      match more_specific n o with
      | Except.error e => Except.error e
      | Except.ok b =>
          match filterMS ns o with
          | Except.error e => Except.error e
          | Except.ok rest => Except.ok (if b then n :: rest else rest)

/-- Embeds `update_specs` (constraints.py, lines 66-78): each old entry is
replaced by every new entry more specific than it, and kept when none is. -/
def update_specs (newcs olds : List String) : Except NamingExc (List String) :=
  match olds with
  | [] => Except.ok []
  | o :: os =>
      match filterMS newcs o with
      | Except.error e => Except.error e
      | Except.ok repl =>
          match update_specs newcs os with
          | Except.error e => Except.error e
          | Except.ok rest =>
              Except.ok ((if repl.isEmpty then [o] else repl) ++ rest)

/-- Embeds the per-key body of `add_constraints` (constraints.py,
lines 81-94), for one of the keys `permitted` / `excluded`.  A falsy
accumulated value is replaced by a truthy new list; a truthy accumulated
value with the key absent from the new constraints hits
`new_constraints[key]` on line 89 and raises `KeyError`; a truthy new
list refines it through `update_specs`. -/
def addConstraintKey (newv oldv : Option (List String)) :
    Except NamingExc (Option (List String)) :=
  match oldv with
  | none =>
      match newv with
      | some (x :: xs) => Except.ok (some (x :: xs))
      | _ => Except.ok none
  | some [] =>
      match newv with
      | some (x :: xs) => Except.ok (some (x :: xs))
      | _ => Except.ok (some [])
  | some (o :: os) =>
      match newv with
      | none => Except.error NamingExc.keyError
      | some [] => Except.ok (some (o :: os))
      | some (n :: ns) =>
          match update_specs (n :: ns) (o :: os) with
          | Except.error e => Except.error e
          | Except.ok l => Except.ok (some l)

/-- Embeds `update_naming_constraints` (constraints.py, lines 97-106): a
statement without a `naming_constraints` member leaves the accumulated
naming state untouched; `add_constraints` handles `permitted` first, then
`excluded`, and its exceptions propagate. -/
def update_naming_constraints (constraints : SConstraints)
    (nc : SConstraintsNaming) : Except NamingExc SConstraintsNaming :=
  match constraints.naming_constraints with
  | none => Except.ok nc
  | some newc =>
      match addConstraintKey newc.permitted nc.permitted with
      | Except.error e => Except.error e
      | Except.ok p =>
          match addConstraintKey newc.excluded nc.excluded with
          | Except.error e => Except.error e
          | Except.ok x => Except.ok { permitted := p, excluded := x }

/-- Embeds `excluded` (constraints.py, lines 109-113): first covering
entry wins; `more_specific` exceptions propagate. -/
def isExcluded (subject_id : String) : List String → Except NamingExc Bool
  | [] => Except.ok false
  | x :: xs =>
      match more_specific subject_id x with
      | Except.error e => Except.error e
      | Except.ok true => Except.ok true
      | Except.ok false => isExcluded subject_id xs

/-- Embeds `permitted` (constraints.py, lines 116-120). -/
def isPermitted (subject_id : String) : List String → Except NamingExc Bool
  | [] => Except.ok false
  | x :: xs =>
      match more_specific subject_id x with
      | Except.error e => Except.error e
      | Except.ok true => Except.ok true
      | Except.ok false => isPermitted subject_id xs

/-- The two naming checks `meets_restrictions` performs on every subject
(constraints.py, lines 152-159 and 164-172): a violation when covered by
a truthy excluded list, or not covered by a truthy permitted list; the
excluded check runs first and exceptions propagate. -/
def namingViolation (subj : String) (nc : SConstraintsNaming) :
    Except NamingExc Bool :=
  match (match nc.excluded with
         | some (x :: xs) => isExcluded subj (x :: xs)
         | _ => Except.ok false) with
  | Except.error e => Except.error e
  | Except.ok true => Except.ok true
  | Except.ok false =>
      match nc.permitted with
      | some (x :: xs) =>
          match isPermitted subj (x :: xs) with
          | Except.error e => Except.error e
          | Except.ok b => Except.ok (!b)
      | _ => Except.ok false

/-- The loop of `meets_restrictions` over all statements but the leaf
(constraints.py, lines 139-159), with the running state made explicit.
`ok none` models the early `return False`; `ok (some s)` carries the
final path-length value, the assigned flag and the naming state; `error`
models a `KeyError` / `ValueError` escaping the loop. -/
def constraintsLoop :
    List EntityStatement → Int → Bool → SConstraintsNaming →
      Except NamingExc (Option (Int × Bool × SConstraintsNaming))
  | [], cur, asg, nc => Except.ok (some (cur, asg, nc))
  | st :: rest, cur, asg, nc =>
      match st.constraints with
      | none =>
          if cur < 0 then Except.ok none
          else
            match namingViolation st.sub nc with
            | Except.error e => Except.error e
            | Except.ok true => Except.ok none
            | Except.ok false => constraintsLoop rest cur asg nc
      | some c =>
          if calculate_path_length c cur asg < 0 then Except.ok none
          else
            match update_naming_constraints c nc with
            | Except.error e => Except.error e
            | Except.ok nc2 =>
                match namingViolation st.sub nc2 with
                | Except.error e => Except.error e
                | Except.ok true => Except.ok none
                | Except.ok false =>
                    constraintsLoop rest (calculate_path_length c cur asg)
                      true nc2

/-- Embeds `meets_restrictions` (constraints.py, lines 123-174): the loop
over all but the last statement, then the naming checks on the leaf;
`KeyError` / `ValueError` raised inside propagate.  The Python code
indexes `trust_chain[-1]` and is only called on non-empty chains; the
embedding returns `ok true` on the unreachable empty input. -/
def meets_restrictions (trust_chain : List EntityStatement) :
    Except NamingExc Bool :=
  match constraintsLoop trust_chain.dropLast 0 false ⟨none, none⟩ with
  | Except.error e => Except.error e
  | Except.ok none => Except.ok false
  | Except.ok (some s) =>
      match trust_chain.getLast? with
      | none => Except.ok true
      | some leaf =>
          match namingViolation leaf.sub s.2.2 with
          | Except.error e => Except.error e
          | Except.ok v => Except.ok (!v)

/-! ## The trust-chain verifier (src/fedservice/entity/function/verifier.py)

The JOSE primitives (`factory`, `verify_compact`) are external
collaborators: a token is modelled as its decoded payload plus the `kid`
of its JWS header, and a signature verifies exactly when the key jar
offers matching keys (`verify_compact` failures other than the two the
claim names are outside the model). -/

/-- A compact JWS as the verifier sees it: decoded payload plus the header
field the key lookup uses. -/
structure Token where
  payload : EntityStatement
  kid : String
  deriving DecidableEq, Repr

/-- Models cryptojwt `KeyJar.get_jwt_verify_keys`: the keys installed for
the token's payload issuer that match the JWS header `kid` (every key of
the issuer when the header carries no `kid`). -/
def get_jwt_verify_keys (kj : KeyJar) (t : Token) : List JWK :=
  (keysOf kj t.payload.iss).filter (fun k => t.kid.isEmpty || k.kid == t.kid)

/-- The exceptions `TrustChainVerifier._verify_trust_chain` can raise:
its own `MissingKey` (line 76) and `ValueError('Missing signing JWKS')`
(line 86), plus the `KeyError` / `ValueError` a `meets_restrictions` call
lets escape. -/
inductive VerifyError where
  | missingKey
  | missingSigningJwks
  | naming (e : NamingExc)
  deriving DecidableEq, Repr

/-- The statement loop of `TrustChainVerifier._verify_trust_chain`
(verifier.py, lines 65-105): `n` is `len(entity_statement_list) - 1`,
`acc` the statements verified so far.  No keys matching the JWS header
raises `MissingKey` (line 76); a statement without `jwks` that is not the
last one raises `ValueError('Missing signing JWKS')` (line 86); a `jwks`
is installed in the key jar for the statement's subject, adding only keys
not already present. -/
def vLoop (n : Nat) (kj : KeyJar) (acc : List EntityStatement) :
    List Token → Except VerifyError (KeyJar × List EntityStatement)
  | [] => Except.ok (kj, acc)
  | t :: rest =>
      if (get_jwt_verify_keys kj t).isEmpty then Except.error VerifyError.missingKey
      else
        match t.payload.jwks with
        | none =>
            if acc.length ≠ n then Except.error VerifyError.missingSigningJwks
            else vLoop n kj (acc ++ [t.payload]) rest
        | some jwksKeys =>
            vLoop n (addKeyBundle kj t.payload.sub jwksKeys)
              (acc ++ [t.payload]) rest

/-- Embeds `TrustChainVerifier._verify_trust_chain` (verifier.py,
lines 54-110): the statement loop, then the short-circuit
`if verified_entity_statement and meets_restrictions(...)` — an empty
chain skips `meets_restrictions` and yields `[]`, a constraint violation
yields `[]`, and an exception raised inside `meets_restrictions`
propagates. -/
def verify_trust_chain_inner (kj : KeyJar) (chain : List Token) :
    Except VerifyError (List EntityStatement) :=
  match vLoop (chain.length - 1) kj [] chain with
  | Except.error e => Except.error e
  | Except.ok kv =>
      if kv.2.isEmpty then Except.ok []
      else
        match meets_restrictions kv.2 with
        | Except.error e => Except.error (VerifyError.naming e)
        | Except.ok true => Except.ok kv.2
        | Except.ok false => Except.ok []

/-! ## The trust-mark verifier
(src/fedservice/entity/function/trust_mark_verifier.py and the `TrustMark`
message class of src/fedservice/message.py)

External pieces are abstracted as inputs: the verified trust-anchor
statement (fetched through the collector), the anchors of the verified
trust chains found for the mark issuer, and the outcomes of the two JWS
signature verifications. -/

/-- The decoded payload of a trust-mark delegation JWS. -/
structure TrustMarkDel where
  iss : String
  sub : String
  trust_mark_id : String
  iat : Int
  exp : Option Int
  deriving DecidableEq, Repr

/-- The decoded payload of a trust-mark JWS. -/
structure TrustMarkP where
  sub : String
  iss : String
  iat : Int
  trust_mark_id : String
  exp : Option Int
  delegation : Option TrustMarkDel
  deriving DecidableEq, Repr

/-- The failures of the structural check `TrustMark.verify`
(src/fedservice/message.py, lines 611-633), as called with no `entity_id`. -/
inductive TMStructuralErr where
  | expired
  | valueError
  deriving DecidableEq, Repr

/-- Embeds `TrustMark.verify` (src/fedservice/message.py): the expiration
check (`exp` truthy and in the past raises `Expired`), then the delegation
consistency checks (`TrustMarkDelegation.verify` expiration; the
delegation's `sub` must be the mark's `iss` and the `trust_mark_id`s must
agree, else `ValueError`).  Required-claim presence is enforced by the
record type. -/
def trust_mark_struct_verify (now : Int) (tm : TrustMarkP) :
    Except TMStructuralErr Unit :=
  let expPassed : Option Int → Bool := fun e =>
    match e with
    | some v => v ≠ 0 && now > v
    | none => false
  if expPassed tm.exp then Except.error TMStructuralErr.expired
  else
    match tm.delegation with
    | none => Except.ok ()
    | some d =>
        if expPassed d.exp then Except.error TMStructuralErr.expired
        else if tm.iss ≠ d.sub then Except.error TMStructuralErr.valueError
        else if tm.trust_mark_id ≠ d.trust_mark_id then
          Except.error TMStructuralErr.valueError
        else Except.ok ()

/-- A trust-mark-type owner as recorded in a trust anchor's
`trust_mark_owners` (its `jwks` is consumed only by the external signature
check). -/
structure OwnerRec where
  sub : String
  deriving DecidableEq, Repr

/-- The claims of the trust anchor's entity configuration the trust-mark
verifier reads. -/
structure AnchorStatement where
  trust_mark_issuers : Option (List (String × List String))
  trust_mark_owners : Option (List (String × OwnerRec))
  deriving DecidableEq, Repr

/-- The exceptions `TrustMarkVerifier.__call__` can let escape: the
re-raised `ValueError` of the structural check (line 59), and the
`TypeError` of subscripting `None` when a delegated mark's id has no owner
entry (line 86). -/
inductive TMCallErr where
  | valueErrorRaised
  | typeErrorNone
  deriving DecidableEq, Repr

/-- The tail of `TrustMarkVerifier.__call__` after the issuer-recognition
check (trust_mark_verifier.py, lines 80-126): the delegation block, the
trust-chain requirement for the mark issuer, and the final signature
check.  `delegationSigOk` and `markSigOk` abstract the two external JWS
verifications (a failure of either makes the call return `None`);
`chainAnchors` abstracts the anchors of the verified trust chains found
for the mark's issuer. -/
def tm_after_issuer_check (tm : TrustMarkP) (anchorStmt : AnchorStatement)
    (delegationSigOk : Bool) (chainAnchors : List String)
    (trust_anchor : String) (markSigOk : Bool) :
    Except TMCallErr (Option TrustMarkP) :=
  let proceed : Except TMCallErr (Option TrustMarkP) :=
    if chainAnchors.isEmpty then Except.ok none
    else if ¬ trust_anchor ∈ chainAnchors then Except.ok none
    else if markSigOk then Except.ok (some tm) else Except.ok none
  match tm.delegation with
  | none => proceed
  | some d =>
      match anchorStmt.trust_mark_owners with
      | none => Except.ok none
      | some [] => Except.ok none
      | some (o :: os) =>
          match alookup (o :: os) tm.trust_mark_id with
          | none => Except.error TMCallErr.typeErrorNone
          | some delegator =>
              if delegator.sub ≠ d.iss then Except.ok none
              else if delegationSigOk then proceed
              else Except.ok none

/-- Embeds `TrustMarkVerifier.__call__`
(src/fedservice/entity/function/trust_mark_verifier.py, lines 37-126):
structural verification (`Expired` is swallowed into `None`, `ValueError`
re-raised), then the issuer-recognition check against the anchor's
`trust_mark_issuers` (lines 66-78): an absent map or an unknown
`trust_mark_id` yields `None`; a non-empty recognized-issuer list not
containing the mark's `iss` yields `None`; an empty list lets any issuer
through. -/
def tm_verifier_call (now : Int) (tm : TrustMarkP) (anchorStmt : AnchorStatement)
    (trust_anchor : String) (delegationSigOk : Bool) (chainAnchors : List String)
    (markSigOk : Bool) : Except TMCallErr (Option TrustMarkP) :=
  match trust_mark_struct_verify now tm with
  | Except.error TMStructuralErr.expired => Except.ok none
  | Except.error TMStructuralErr.valueError => Except.error TMCallErr.valueErrorRaised
  | Except.ok () =>
      match anchorStmt.trust_mark_issuers with
      | none => Except.ok none
      | some m =>
          match alookup m tm.trust_mark_id with
          | none => Except.ok none
          | some issuers =>
              if issuers.isEmpty || issuers.contains tm.iss then
                tm_after_issuer_check tm anchorStmt delegationSigOk chainAnchors
                  trust_anchor markSigOk
              else Except.ok none

/-- The recognized-issuer list a trust anchor's statement carries for a
trust-mark id: `none` when the anchor publishes no `trust_mark_issuers`
map or the id has no entry in it. -/
def anchorIssuerList (anchorStmt : AnchorStatement) (tmId : String) :
    Option (List String) :=
  match anchorStmt.trust_mark_issuers with
  | none => none
  | some m => alookup m tmId

/-! ## Metadata-policy verb verification (src/fedservice/message.py) -/

/-- The exceptions `Policy.verify` can raise. -/
inductive PolicyErr where
  | emptyCritList
  | unknownCriticalExtension (verbs : List String)
  deriving DecidableEq, Repr

/-- Embeds `Policy.verify` (src/fedservice/message.py, lines 378-393).
`extraParams` is `self.extra().keys()`: the verbs of the policy entry
outside the recognized set (`subset_of`, `one_of`, `superset_of`, `add`,
`value`, `default`, `essential`); `crit` is the `policy_language_crit`
kwarg, `known` the `known_policy_extensions` kwarg.  An empty `crit` list
raises `ValueError`; otherwise `musts` is the set of extra verbs marked
critical, and with no (truthy) known-extension list configured the code
raises `UnknownCriticalExtension` whenever extra verbs exist — even when
`musts` is empty. -/
def policy_verify (extraParams : List String) (crit : Option (List String))
    (known : Option (List String)) : Except PolicyErr Unit :=
  if extraParams.isEmpty then Except.ok ()
  else
    match crit with
    | none => Except.ok ()
    | some critList =>
        if critList.isEmpty then Except.error PolicyErr.emptyCritList
        else
          match known with
          | none =>
              Except.error (PolicyErr.unknownCriticalExtension
                (critList.filter (fun v => extraParams.contains v)))
          | some knownList =>
              if knownList.isEmpty then
                Except.error (PolicyErr.unknownCriticalExtension
                  (critList.filter (fun v => extraParams.contains v)))
              else if (critList.filter (fun v => extraParams.contains v)).all
                  (fun v => knownList.contains v) then Except.ok ()
              else
                Except.error (PolicyErr.unknownCriticalExtension
                  ((critList.filter (fun v => extraParams.contains v)).filter
                    (fun v => ¬ knownList.contains v)))

/-! ## The abfile trust-marks source (src/fedservice/entity/trust_marks_source.py) -/

/-- The decoded payload of a stored trust-mark JWS, as
`TrustMarksFromABFile.__call__` reads it (claims may be missing). -/
structure TMPayload where
  trust_mark_type : Option String
  iss : Option String
  sub : Option String
  iat : Option Int
  exp : Option Int
  deriving DecidableEq, Repr

/-- One value of the abfile store: the outer JSON object with its
`trust_mark` JWS (and optional outer `trust_mark_type`), plus the decoded
payload of that JWS (`none` models a JWS `get_payload` cannot decode). -/
structure TMStoreItem where
  trust_mark : Option String
  outer_type : Option String
  payload : Option TMPayload
  deriving DecidableEq, Repr

/-- The record `_best` keeps per group. -/
structure BestRec where
  trust_mark_type : String
  trust_mark : String
  iat : Int
  exp : Option Int
  deriving DecidableEq, Repr

/-- Embeds `TrustMarksFromABFile._exp_rank` comparison: Python ranks a
missing `exp` as `float("inf")`; this is the strict order
`_exp_rank a > _exp_rank b`. -/
def exp_rank_gt : Option Int → Option Int → Bool
  | none, none => false
  | none, some _ => true
  | some _, none => false
  | some a, some b => a > b

/-- The replacement test of the selection loop (trust_marks_source.py,
lines 153-157): a candidate displaces the current best of its group when
its `iat` is newer, or equal with a higher `_exp_rank`. -/
def tm_beats (r cur : BestRec) : Bool :=
  r.iat > cur.iat || (r.iat == cur.iat && exp_rank_gt r.exp cur.exp)

/-- The filter part of `TrustMarksFromABFile.__call__` (lines 66-150): all
the skip conditions applied to one store item, in source order; the
result is the group key and `_best` record for an accepted item.
`expectedSub` is `self.sub or entity_id` (a missing or empty value
disables the subject filter). -/
def item_candidate (expectedSub : Option String) (byIssuer : Bool)
    (leeway now : Int) (it : TMStoreItem) :
    Option ((String × String) × BestRec) :=
  match it.trust_mark with
  | none => none
  | some jws =>
      if jws.isEmpty then none
      else
        match it.payload with
        | none => none
        | some p =>
            match p.trust_mark_type, p.iss, p.sub, p.iat with
            | some tmt, some iss, some sub, some iat =>
                if tmt.isEmpty || iss.isEmpty || sub.isEmpty then none
                else if (match it.outer_type with
                         | some ot => !ot.isEmpty && ot != tmt
                         | none => false) then none
                else if (match expectedSub with
                         | some es => !es.isEmpty && sub != es
                         | none => false) then none
                else if iat > now + leeway then none
                else
                  match p.exp with
                  | some e =>
                      if e ≤ now then none
                      else some ((tmt, if byIssuer then iss else ""),
                                 ⟨tmt, jws, iat, some e⟩)
                  | none =>
                      some ((tmt, if byIssuer then iss else ""),
                            ⟨tmt, jws, iat, none⟩)
            | _, _, _, _ => none

/-- One iteration of the selection loop of `TrustMarksFromABFile.__call__`
(lines 150-169): a skipped item leaves `_best` alone; a candidate is
entered for a fresh group, and displaces the current best of its group
exactly when `tm_beats` holds. -/
def tm_step (expectedSub : Option String) (byIssuer : Bool)
    (leeway now : Int) (best : List ((String × String) × BestRec))
    (it : TMStoreItem) : List ((String × String) × BestRec) :=
  match item_candidate expectedSub byIssuer leeway now it with
  | none => best
  | some (g, r) =>
      match alookup best g with
      | none => best ++ [(g, r)]
      | some cur => if tm_beats r cur then assocSet best g r else best

/-- The selection loop of `TrustMarksFromABFile.__call__` (lines 66-169):
folds the store items into the `_best` map (an association list keyed by
group, insertion-ordered like a Python dict). -/
def tm_best_fold (expectedSub : Option String) (byIssuer : Bool)
    (leeway now : Int) (items : List TMStoreItem) :
    List ((String × String) × BestRec) :=
  items.foldl (tm_step expectedSub byIssuer leeway now) []

/-- Lexicographic order on group keys, for `sorted(_best.keys())`. -/
def groupKeyLe (a b : String × String) : Bool :=
  a.1 < b.1 || (a.1 == b.1 && a.2 ≤ b.2)

/-- Insertion into a list sorted by `groupKeyLe`. -/
def insertByKey (x : (String × String) × BestRec) :
    List ((String × String) × BestRec) → List ((String × String) × BestRec)
  | [] => [x]
  | y :: ys => if groupKeyLe x.1 y.1 then x :: y :: ys else y :: insertByKey x ys

/-- Insertion sort by group key. -/
def sortByKey (l : List ((String × String) × BestRec)) :
    List ((String × String) × BestRec) :=
  l.foldr insertByKey []

/-- Embeds `TrustMarksFromABFile.__call__`
(src/fedservice/entity/trust_marks_source.py, lines 58-179): filter and
select per group, then emit `(trust_mark_type, trust_mark)` pairs in
sorted group-key order. -/
def trust_marks_from_abfile (expectedSub : Option String) (byIssuer : Bool)
    (leeway now : Int) (items : List TMStoreItem) : List (String × String) :=
  (sortByKey (tm_best_fold expectedSub byIssuer leeway now items)).map
    (fun p => (p.2.trust_mark_type, p.2.trust_mark))

/-- The store state of the concrete selection scenario: four marks of one
`(type, iss)` group with `iat` 800 (exp 3600), 900 (exp 1200),
900 (no exp) and 850 (exp 4000). -/
def scenarioItems : List TMStoreItem :=
  [⟨some "jws1", none, some ⟨some "T", some "I", some "S", some 800, some 3600⟩⟩,
   ⟨some "jws2", none, some ⟨some "T", some "I", some "S", some 900, some 1200⟩⟩,
   ⟨some "jws3", none, some ⟨some "T", some "I", some "S", some 900, none⟩⟩,
   ⟨some "jws4", none, some ⟨some "T", some "I", some "S", some 850, some 4000⟩⟩]

/-! ## The entity-statement factory and the resolver endpoint
(src/fedservice/entity_statement/create.py and
src/fedservice/entity/server/resolve.py)

The chain-building pipeline the resolver calls first
(`collect_trust_chains`, `verify_trust_chains`, `apply_policies`, and the
collector's `get_chain`) lives in `fedservice.entity.function.__init__`,
which is not part of the sources here; the resolver is therefore modelled
as a function of the trust chains that pipeline produced, with
`get_chain` and the trust-mark verifier function passed as parameters. -/

/-- A signed JWT as `JWT.pack` produces it: the JWS header `typ` plus the
payload fields the resolver fills in (`iat`, `exp` and the embedded
`jwks` are supplied by the external packer and key jar). -/
structure PackedJWT where
  typ : String
  iss : String
  sub : String
  metadata : List (String × String)
  trust_chain : List String
  trust_marks : Option (List (String × String))
  deriving DecidableEq, Repr

/-- Embeds `create_entity_statement`
(src/fedservice/entity_statement/create.py, lines 10-37): the payload is
packed and signed with the fixed JWS header `typ: entity-statement+jwt`
(line 37). -/
def create_entity_statement (iss sub : String)
    (metadata : List (String × String)) (trust_chain : List String)
    (trust_marks : Option (List (String × String))) : PackedJWT :=
  { typ := "entity-statement+jwt"
    iss := iss
    sub := sub
    metadata := metadata
    trust_chain := trust_chain
    trust_marks := trust_marks }

/-- Embeds `create_entity_configuration` (create.py, lines 40-71):
`create_entity_statement` with `sub = iss`. -/
def create_entity_configuration (iss : String)
    (metadata : List (String × String)) (trust_chain : List String)
    (trust_marks : Option (List (String × String))) : PackedJWT :=
  create_entity_statement iss iss metadata trust_chain trust_marks

/-- A verified trust chain as the resolver consumes it: the policy-applied
metadata per entity type, the leaf's advertised trust-mark JWSes
(`verified_chain[-1]["trust_marks"]`), and the issuer path. -/
structure TrustChainRec where
  anchor : String
  metadata : List (String × String)
  leafTrustMarks : List String
  iss_path : List String
  deriving DecidableEq, Repr

/-- The exceptions `Resolve.process_request` can raise after chain
collection: dereferencing the `None` chosen chain
(`AttributeError`, lines 46-49 via line 40) and a requested `type` absent
from the chosen chain's metadata (`KeyError`, line 47). -/
inductive ResolveErr where
  | attributeErrorNone
  | keyError
  deriving DecidableEq, Repr

/-- The chosen-chain loop of `Resolve.process_request`
(src/fedservice/entity/server/resolve.py, lines 40-44): the first chain
in candidate order whose anchor equals the requested trust anchor;
`None` when no chain matches. -/
def pickChosen : List TrustChainRec → String → Option TrustChainRec
  | [], _ => none
  | tc :: rest, ta => if ta = tc.anchor then some tc else pickChosen rest ta

/-- Embeds `Resolve.process_request`
(src/fedservice/entity/server/resolve.py, lines 28-76) from the point
where the verified, policy-applied chains are in hand: chain selection,
metadata restriction to a requested `type`, verification of the leaf's
trust marks against the requested anchor (`markVerify` is the
trust-mark-verifier function, returning the verified mark's
`trust_mark_type`), rehydration of the chain tokens (`getChain` is the
collector's `get_chain`), and the signed response via
`create_entity_configuration`. -/
def resolve_process_request (entity_id : String) (chains : List TrustChainRec)
    (markVerify : String → Option String)
    (getChain : List String → String → Bool → List String)
    (reqTA : String) (reqType : Option String) (withTaEc : Bool) :
    Except ResolveErr PackedJWT :=
  match pickChosen chains reqTA with
  | none => Except.error ResolveErr.attributeErrorNone
  | some tc =>
      match (match reqType with
             | some ty => (alookup tc.metadata ty).map (fun v => [(ty, v)])
             | none => some tc.metadata) with
      | none => Except.error ResolveErr.keyError
      | some md =>
          let vtm := tc.leafTrustMarks.filterMap
            (fun s => (markVerify s).map (fun t => (t, s)))
          let chainTokens := getChain tc.iss_path reqTA withTaEc
          Except.ok (create_entity_configuration entity_id md chainTokens
            (if vtm.isEmpty then none else some vtm))

/-! ## Theorems -/

/-- The scan of `FileDB.find` returns `False` at the first expired line,
whatever follows it. -/
theorem findScan_stops (now : Int) (sub : String) (iat : Int) :
    ∀ (pre : List TMInfo) (e : TMInfo) (rest : List TMInfo),
      tmExpired now e = true →
      (∀ x ∈ pre, tmExpired now x = false ∧ matchTM sub iat x = false) →
      findScan now sub iat (pre ++ e :: rest) = false := by
  intro pre
  induction pre with
  | nil =>
      intro e rest he _
      simp [findScan, he]
  | cons x xs ih =>
      intro e rest he hp
      have hx := hp x (List.mem_cons_self x xs)
      have hrec := ih e rest he (fun y hy => hp y (List.mem_cons_of_mem x hy))
      simp [findScan, hx.1, hx.2, hrec]

/-- Claim C10: `FileDB.find` scans the stored lines newest-first and
returns `False` as soon as it reaches any entry whose `exp` lies in the
past, without examining older lines; in particular a store whose newest
line is expired makes `find` return `False` although an older,
non-expired line matches the subject. -/
theorem filedb_find_stops_at_expired :
    (∀ (now : Int) (sub : String) (iat : Int) (older : List TMInfo)
        (e : TMInfo) (newer : List TMInfo),
        tmExpired now e = true →
        (∀ x ∈ newer, tmExpired now x = false ∧ matchTM sub iat x = false) →
        fileDBfind now (older ++ e :: newer) sub iat = false) ∧
    (matchTM "s" 0 ⟨"s", 5, some 2000⟩ = true ∧
     tmExpired 100 ⟨"s", 5, some 2000⟩ = false ∧
     fileDBfind 100 [⟨"s", 5, some 2000⟩, ⟨"x", 6, some 10⟩] "s" 0 = false) := by
  constructor
  · intro now sub iat older e newer he hn
    unfold fileDBfind
    have : (older ++ e :: newer).reverse = newer.reverse ++ e :: older.reverse := by
      simp [List.reverse_append]
    rw [this]
    exact findScan_stops now sub iat newer.reverse e older.reverse he
      (fun x hx => hn x (List.mem_reverse.mp hx))
  · refine ⟨by decide, by decide, by decide⟩

/-- Witness for C10: the concrete two-line store (older matching
non-expired line below a newer expired one) run through the theorem. -/
theorem filedb_find_stops_at_expired_witness :
    fileDBfind 100 [⟨"s", 5, some 2000⟩, ⟨"x", 6, some 10⟩] "s" 0 = false :=
  filedb_find_stops_at_expired.1 100 "s" 0 [⟨"s", 5, some 2000⟩]
    ⟨"x", 6, some 10⟩ [] (by decide) (by intro x hx; cases hx)

/-- The fold of `trust_chain_expires_at`, started from a non-negative
accumulator, computes the minimum of the accumulator and the `exp`s. -/
theorem expiresFold_min (l : List EntityStatement) :
    ∀ (acc : Int), 0 ≤ acc → (∀ st ∈ l, 0 ≤ st.exp) →
      (l.foldl expStep acc ∈ acc :: l.map (fun st => st.exp)) ∧
      (∀ e ∈ acc :: l.map (fun st => st.exp), l.foldl expStep acc ≤ e) := by
  induction l with
  | nil =>
      intro acc _ _
      refine ⟨by simp, ?_⟩
      intro e he
      rcases List.mem_cons.mp he with h | h
      · simp only [List.foldl_nil]; omega
      · simp at h
  | cons st rest ih =>
      intro acc hacc hall
      have hst : 0 ≤ st.exp := hall st (List.mem_cons_self st rest)
      have hrest : ∀ x ∈ rest, 0 ≤ x.exp :=
        fun x hx => hall x (List.mem_cons_of_mem st hx)
      have hdef : expStep acc st = if st.exp < acc then st.exp else acc := by
        unfold expStep; rw [if_pos hacc]
      have h2 : 0 ≤ expStep acc st := by rw [hdef]; split <;> omega
      have hle1 : expStep acc st ≤ acc := by rw [hdef]; split <;> omega
      have hle2 : expStep acc st ≤ st.exp := by rw [hdef]; split <;> omega
      have hcases : expStep acc st = st.exp ∨ expStep acc st = acc := by
        rw [hdef]; split
        · exact Or.inl rfl
        · exact Or.inr rfl
      obtain ⟨ihmem, ihle⟩ := ih (expStep acc st) h2 hrest
      have hfold : (st :: rest).foldl expStep acc
          = rest.foldl expStep (expStep acc st) := rfl
      constructor
      · rw [hfold]
        rcases List.mem_cons.mp ihmem with h | h
        · rw [h]
          rcases hcases with h3 | h3 <;> rw [h3]
          · rw [List.map_cons]
            exact List.mem_cons.mpr (Or.inr (List.mem_cons_self _ _))
          · exact List.mem_cons_self acc _
        · rw [List.map_cons]
          exact List.mem_cons.mpr (Or.inr (List.mem_cons.mpr (Or.inr h)))
      · intro e he
        rw [hfold]
        have hfle : rest.foldl expStep (expStep acc st) ≤ expStep acc st :=
          ihle (expStep acc st) (List.mem_cons_self _ _)
        rcases List.mem_cons.mp he with h | h
        · omega
        · rw [List.map_cons] at h
          rcases List.mem_cons.mp h with h3 | h3
          · omega
          · exact ihle e (List.mem_cons.mpr (Or.inr h3))

/-- Claim C4: the `exp` of every `TrustChain` the verifier constructs is
the minimum of the `exp` values of the statements in its
`verified_chain` (with the non-negative timestamps every JWT `exp`
carries). -/
theorem trust_chain_exp_is_min (verified : List EntityStatement)
    (hne : verified ≠ []) (hpos : ∀ st ∈ verified, 0 ≤ st.exp) :
    (mk_trust_chain verified).exp ∈ verified.map (fun st => st.exp) ∧
    ∀ e ∈ verified.map (fun st => st.exp), (mk_trust_chain verified).exp ≤ e := by
  cases verified with
  | nil => exact absurd rfl hne
  | cons st rest =>
      have hst : 0 ≤ st.exp := hpos st (List.mem_cons_self st rest)
      have hrest : ∀ x ∈ rest, 0 ≤ x.exp :=
        fun x hx => hpos x (List.mem_cons_of_mem st hx)
      have hfirst :
          (mk_trust_chain (st :: rest)).exp = rest.foldl expStep st.exp := by
        show (st :: rest).foldl expStep (-1) = rest.foldl expStep st.exp
        rw [List.foldl_cons]
        norm_num [expStep]
      have h := expiresFold_min rest st.exp hst hrest
      constructor
      · rw [hfirst]
        simpa using h.1
      · intro e he
        rw [hfirst]
        exact h.2 e (by simpa using he)

/-- Witness for C4: a two-statement chain with `exp`s 100 and 50. -/
theorem trust_chain_exp_is_min_witness :
    (mk_trust_chain [⟨"TA", "IM", 100, none, none⟩, ⟨"IM", "RP", 50, none, none⟩]).exp
        ∈ [⟨"TA", "IM", 100, none, none⟩,
           (⟨"IM", "RP", 50, none, none⟩ : EntityStatement)].map (fun st => st.exp) ∧
    ∀ e ∈ [⟨"TA", "IM", 100, none, none⟩,
           (⟨"IM", "RP", 50, none, none⟩ : EntityStatement)].map (fun st => st.exp),
      (mk_trust_chain [⟨"TA", "IM", 100, none, none⟩,
                       ⟨"IM", "RP", 50, none, none⟩]).exp ≤ e :=
  trust_chain_exp_is_min
    [⟨"TA", "IM", 100, none, none⟩, ⟨"IM", "RP", 50, none, none⟩]
    (by decide) (by decide)

/-- Claim C8: the signed response of a successful resolve carries the JWS
header `typ: entity-statement+jwt` — not the `resolve-response+jwt` the
claim (and the repository's own test
`test_57_resolve.py::test_resolver`) requires: `Resolve.process_request`
signs through `create_entity_configuration`, whose packer fixes the
header to `entity-statement+jwt`. -/
theorem resolve_response_typ_bug :
    (resolve_process_request "https://ta.example.org"
        [⟨"https://ta.example.org", [("federation_entity", "md")], [],
          ["https://rp.example.org", "https://ta.example.org"]⟩]
        (fun _ => none) (fun _ _ _ => []) "https://ta.example.org" none
        false).map (fun r => r.typ)
      = Except.ok "entity-statement+jwt" ∧
    "entity-statement+jwt" ≠ "resolve-response+jwt" := by
  exact ⟨rfl, by decide⟩

/-- Claim C1 (counterexample): a resolve for a specific anchor that
produced no chain does not yield an empty response — the endpoint
dereferences the `None` chosen chain and raises `AttributeError`; shown
both for an empty candidate list and for candidates whose anchors all
differ from the requested one. -/
theorem resolve_no_chain_raises_cex :
    resolve_process_request "https://resolver.example.org" []
        (fun _ => none) (fun _ _ _ => []) "https://ta.example.org" none false
      = Except.error ResolveErr.attributeErrorNone ∧
    resolve_process_request "https://resolver.example.org"
        [⟨"https://ta2.example.org", [("federation_entity", "md")], [],
          ["https://rp.example.org"]⟩]
        (fun _ => none) (fun _ _ _ => []) "https://ta1.example.org" none false
      = Except.error ResolveErr.attributeErrorNone := by
  exact ⟨rfl, rfl⟩

/-- Claim C1 (amended): the resolver selects the first chain in candidate
order whose anchor equals the requested trust anchor (all matching chains
share that anchor, so an anchor-priority list cannot distinguish them and
is not consulted); when no candidate matches, `process_request` raises
(`AttributeError` on the `None` chosen chain) instead of returning an
empty response. -/
theorem resolve_chain_selection_amended :
    (∀ (chains : List TrustChainRec) (ta : String) (tc : TrustChainRec),
        pickChosen chains ta = some tc →
        tc.anchor = ta ∧
        ∃ pre post, chains = pre ++ tc :: post ∧ ∀ x ∈ pre, x.anchor ≠ ta) ∧
    (∀ (chains : List TrustChainRec) (ta : String),
        pickChosen chains ta = none → ∀ x ∈ chains, x.anchor ≠ ta) ∧
    (∀ (entity_id : String) (chains : List TrustChainRec)
        (mv : String → Option String)
        (gc : List String → String → Bool → List String)
        (ta : String) (rt : Option String) (wta : Bool),
        pickChosen chains ta = none →
        resolve_process_request entity_id chains mv gc ta rt wta
          = Except.error ResolveErr.attributeErrorNone) := by
  refine ⟨?_, ?_, ?_⟩
  · intro chains
    induction chains with
    | nil => intro ta tc h; simp [pickChosen] at h
    | cons c rest ih =>
        intro ta tc h
        by_cases hc : ta = c.anchor
        · rw [pickChosen, if_pos hc] at h
          cases h
          exact ⟨hc.symm, [], rest, rfl, by intro x hx; cases hx⟩
        · rw [pickChosen, if_neg hc] at h
          obtain ⟨hanch, pre, post, heq, hpre⟩ := ih ta tc h
          refine ⟨hanch, c :: pre, post,
            by rw [heq]; exact (List.cons_append c pre (tc :: post)).symm, ?_⟩
          intro x hx
          rcases List.mem_cons.mp hx with h1 | h1
          · subst h1; exact fun habs => hc habs.symm
          · exact hpre x h1
  · intro chains
    induction chains with
    | nil => intro ta _ x hx; cases hx
    | cons c rest ih =>
        intro ta h x hx
        by_cases hc : ta = c.anchor
        · rw [pickChosen, if_pos hc] at h; cases h
        · rw [pickChosen, if_neg hc] at h
          rcases List.mem_cons.mp hx with h1 | h1
          · subst h1; exact fun habs => hc habs.symm
          · exact ih ta h x h1
  · intro entity_id chains mv gc ta rt wta h
    unfold resolve_process_request
    rw [h]

/-- Witness for C1: the amended theorem applied to a two-chain candidate
list (the second chain matches) and to a no-match request. -/
theorem resolve_chain_selection_amended_witness :
    ((⟨"https://ta-b.example.org", [], [], []⟩ : TrustChainRec).anchor
        = "https://ta-b.example.org" ∧
     ∃ pre post,
        [⟨"https://ta-a.example.org", [], [], []⟩,
         (⟨"https://ta-b.example.org", [], [], []⟩ : TrustChainRec)]
          = pre ++ (⟨"https://ta-b.example.org", [], [], []⟩ : TrustChainRec) :: post ∧
        ∀ x ∈ pre, x.anchor ≠ "https://ta-b.example.org") ∧
    resolve_process_request "https://resolver.example.org"
        [⟨"https://ta-a.example.org", [], [], []⟩]
        (fun _ => none) (fun _ _ _ => []) "https://ta-c.example.org" none false
      = Except.error ResolveErr.attributeErrorNone :=
  ⟨resolve_chain_selection_amended.1
      [⟨"https://ta-a.example.org", [], [], []⟩,
       ⟨"https://ta-b.example.org", [], [], []⟩]
      "https://ta-b.example.org" ⟨"https://ta-b.example.org", [], [], []⟩
      (by decide),
   resolve_chain_selection_amended.2.2 "https://resolver.example.org"
      [⟨"https://ta-a.example.org", [], [], []⟩]
      (fun _ => none) (fun _ _ _ => []) "https://ta-c.example.org" none false
      (by decide)⟩

/-- Looking up in a key jar after appending keys to the values bound to
one subject: the updated subject sees the keys appended, others are
untouched. -/
theorem alookup_map_append (kj : KeyJar) (sub : String)
    (fresh : List JWK) (s : String) :
    alookup (kj.map (fun p => if p.1 = sub then (p.1, p.2 ++ fresh) else p)) s
      = if s = sub then (alookup kj s).map (fun v => v ++ fresh)
        else alookup kj s := by
  induction kj with
  | nil =>
      simp only [List.map_nil, alookup]
      split <;> rfl
  | cons p rest ih =>
      simp only [List.map_cons]
      by_cases h1 : p.1 = sub
      · rw [if_pos h1]
        by_cases h2 : s = sub
        · subst h2
          simp [alookup, h1]
        · have h3 : ¬ p.1 = s := by rw [h1]; exact fun hh => h2 hh.symm
          simp [alookup, h3, h2, ih]
      · rw [if_neg h1]
        by_cases h3 : p.1 = s
        · have h2 : ¬ s = sub := fun hh => h1 (h3.trans hh)
          simp [alookup, h3, h2]
        · simp [alookup, h3, ih]

/-- Claim C9: the keyring update of chain verification is append-only per
subject — the keys a subject already has stay in place, exactly the
bundle keys not already present for that subject are appended, and all
other subjects are untouched. -/
theorem keyjar_update_append_only (kj : KeyJar) (sub : String) (kb : List JWK) :
    keysOf (addKeyBundle kj sub kb) sub
      = keysOf kj sub ++ kb.filter (fun k => ¬ k ∈ keysOf kj sub) ∧
    ∀ s, s ≠ sub → keysOf (addKeyBundle kj sub kb) s = keysOf kj s := by
  rcases hg : getIssuerKeys kj sub with _ | old
  · have hdef : addKeyBundle kj sub kb = (sub, kb) :: kj := by
      unfold addKeyBundle; rw [hg]
    have h1 : keysOf kj sub = [] := by simp [keysOf, hg]
    constructor
    · rw [hdef, h1, List.nil_append]
      have h2 : keysOf ((sub, kb) :: kj) sub = kb := by
        simp [keysOf, getIssuerKeys, alookup]
      rw [h2]
      symm
      apply List.filter_eq_self.mpr
      intro a _
      simp
    · intro s hs
      have h5 : ¬ sub = s := fun hh => hs hh.symm
      rw [hdef]
      simp [keysOf, getIssuerKeys, alookup, h5]
  · by_cases hemp : (kb.filter (fun k => ¬ k ∈ old)).isEmpty
    · have hdef : addKeyBundle kj sub kb = kj := by
        unfold addKeyBundle
        rw [hg]
        show (if (kb.filter (fun k => ¬ k ∈ old)).isEmpty then kj
              else kj.map (fun p =>
                if p.1 = sub then (p.1, p.2 ++ kb.filter (fun k => ¬ k ∈ old))
                else p)) = kj
        rw [if_pos hemp]
      have h1 : keysOf kj sub = old := by simp [keysOf, hg]
      constructor
      · rw [hdef, h1]
        have h2 : kb.filter (fun k => ¬ k ∈ old) = [] :=
          List.isEmpty_iff.mp hemp
        rw [h2, List.append_nil]
      · intro s _
        rw [hdef]
    · have hdef : addKeyBundle kj sub kb
          = kj.map (fun p =>
              if p.1 = sub then (p.1, p.2 ++ kb.filter (fun k => ¬ k ∈ old))
              else p) := by
        unfold addKeyBundle
        rw [hg]
        show (if (kb.filter (fun k => ¬ k ∈ old)).isEmpty then kj
              else kj.map (fun p =>
                if p.1 = sub then (p.1, p.2 ++ kb.filter (fun k => ¬ k ∈ old))
                else p))
            = kj.map (fun p =>
                if p.1 = sub then (p.1, p.2 ++ kb.filter (fun k => ¬ k ∈ old))
                else p)
        rw [if_neg hemp]
      have h1 : keysOf kj sub = old := by simp [keysOf, hg]
      constructor
      · rw [hdef, h1]
        unfold keysOf getIssuerKeys
        rw [alookup_map_append kj sub (kb.filter (fun k => ¬ k ∈ old)) sub,
          if_pos rfl]
        have hg2 : alookup kj sub = some old := hg
        rw [hg2]
        rfl
      · intro s hs
        rw [hdef]
        unfold keysOf getIssuerKeys
        rw [alookup_map_append kj sub (kb.filter (fun k => ¬ k ∈ old)) s,
          if_neg hs]

/-- Witness for C9: installing a two-key bundle for a subject that
already holds the first key appends only the second, and leaves a
different subject's keys unchanged. -/
theorem keyjar_update_append_only_witness :
    keysOf (addKeyBundle
        [("https://im.example.org", [⟨"RSA", "sig", "im1"⟩]),
         ("https://ta.example.org", [⟨"RSA", "sig", "ta1"⟩])]
        "https://im.example.org"
        [⟨"RSA", "sig", "im1"⟩, ⟨"EC", "sig", "im2"⟩]) "https://im.example.org"
      = keysOf
          [("https://im.example.org", [⟨"RSA", "sig", "im1"⟩]),
           ("https://ta.example.org", [⟨"RSA", "sig", "ta1"⟩])]
          "https://im.example.org"
        ++ [⟨"RSA", "sig", "im1"⟩, (⟨"EC", "sig", "im2"⟩ : JWK)].filter
            (fun k => ¬ k ∈ keysOf
              [("https://im.example.org", [⟨"RSA", "sig", "im1"⟩]),
               ("https://ta.example.org", [⟨"RSA", "sig", "ta1"⟩])]
              "https://im.example.org") ∧
    keysOf (addKeyBundle
        [("https://im.example.org", [⟨"RSA", "sig", "im1"⟩]),
         ("https://ta.example.org", [⟨"RSA", "sig", "ta1"⟩])]
        "https://im.example.org"
        [⟨"RSA", "sig", "im1"⟩, ⟨"EC", "sig", "im2"⟩]) "https://ta.example.org"
      = keysOf
          [("https://im.example.org", [⟨"RSA", "sig", "im1"⟩]),
           ("https://ta.example.org", [⟨"RSA", "sig", "ta1"⟩])]
          "https://ta.example.org" :=
  ⟨(keyjar_update_append_only
      [("https://im.example.org", [⟨"RSA", "sig", "im1"⟩]),
       ("https://ta.example.org", [⟨"RSA", "sig", "ta1"⟩])]
      "https://im.example.org"
      [⟨"RSA", "sig", "im1"⟩, ⟨"EC", "sig", "im2"⟩]).1,
   (keyjar_update_append_only
      [("https://im.example.org", [⟨"RSA", "sig", "im1"⟩]),
       ("https://ta.example.org", [⟨"RSA", "sig", "ta1"⟩])]
      "https://im.example.org"
      [⟨"RSA", "sig", "im1"⟩, ⟨"EC", "sig", "im2"⟩]).2
    "https://ta.example.org" (by decide)⟩

/-- Claim C3: with a structurally valid (unexpired) trust mark, the
verifier returns `None` when the mark's `trust_mark_id` does not appear
in the anchor's `trust_mark_issuers`; returns `None` when the recognized
issuer list is non-empty and the mark's `iss` is not in it; and when the
recognized issuer list is empty the issuer-recognition check passes for
any issuer — the call proceeds to the delegation/chain/signature stage
unchanged. -/
theorem trust_mark_issuer_recognition (now : Int) (tm : TrustMarkP)
    (anchorStmt : AnchorStatement) (ta : String) (dOk : Bool)
    (cas : List String) (mOk : Bool)
    (hok : trust_mark_struct_verify now tm = Except.ok ()) :
    (anchorIssuerList anchorStmt tm.trust_mark_id = none →
        tm_verifier_call now tm anchorStmt ta dOk cas mOk = Except.ok none) ∧
    (∀ l, anchorIssuerList anchorStmt tm.trust_mark_id = some l → l ≠ [] →
        ¬ tm.iss ∈ l →
        tm_verifier_call now tm anchorStmt ta dOk cas mOk = Except.ok none) ∧
    (anchorIssuerList anchorStmt tm.trust_mark_id = some [] →
        tm_verifier_call now tm anchorStmt ta dOk cas mOk
          = tm_after_issuer_check tm anchorStmt dOk cas ta mOk) := by
  have hcall : tm_verifier_call now tm anchorStmt ta dOk cas mOk
      = (match anchorIssuerList anchorStmt tm.trust_mark_id with
         | none => Except.ok none
         | some issuers =>
             if issuers.isEmpty || issuers.contains tm.iss then
               tm_after_issuer_check tm anchorStmt dOk cas ta mOk
             else Except.ok none) := by
    unfold tm_verifier_call anchorIssuerList
    rw [hok]
    rcases anchorStmt.trust_mark_issuers with _ | m
    · rfl
    · rfl
  refine ⟨?_, ?_, ?_⟩
  · intro h
    rw [hcall, h]
  · intro l h hne hnot
    rw [hcall, h]
    have h1 : l.isEmpty = false := by
      cases l with
      | nil => exact absurd rfl hne
      | cons a as => rfl
    have h2 : l.contains tm.iss = false := by simpa using hnot
    show (if l.isEmpty || l.contains tm.iss then
            tm_after_issuer_check tm anchorStmt dOk cas ta mOk
          else Except.ok none) = Except.ok none
    rw [h1, h2]
    rfl
  · intro h
    rw [hcall, h]
    rfl

/-- Witness for C3: a concrete mark and three anchor configurations — the
id missing from `trust_mark_issuers`, a non-empty issuer list not
containing the mark's issuer, and the empty issuer list. -/
theorem trust_mark_issuer_recognition_witness :
    tm_verifier_call 10
        ⟨"https://rp.example.org", "https://tmi.example.org", 5,
          "https://marks.example.org/sirtfi", none, none⟩
        ⟨some [("https://other-id.example.org", [])], none⟩
        "https://ta.example.org" true ["https://ta.example.org"] true
      = Except.ok none ∧
    tm_verifier_call 10
        ⟨"https://rp.example.org", "https://tmi.example.org", 5,
          "https://marks.example.org/sirtfi", none, none⟩
        ⟨some [("https://marks.example.org/sirtfi",
                ["https://recognized.example.org"])], none⟩
        "https://ta.example.org" true ["https://ta.example.org"] true
      = Except.ok none ∧
    tm_verifier_call 10
        ⟨"https://rp.example.org", "https://tmi.example.org", 5,
          "https://marks.example.org/sirtfi", none, none⟩
        ⟨some [("https://marks.example.org/sirtfi", [])], none⟩
        "https://ta.example.org" true ["https://ta.example.org"] true
      = tm_after_issuer_check
          ⟨"https://rp.example.org", "https://tmi.example.org", 5,
            "https://marks.example.org/sirtfi", none, none⟩
          ⟨some [("https://marks.example.org/sirtfi", [])], none⟩
          true ["https://ta.example.org"] "https://ta.example.org" true :=
  ⟨(trust_mark_issuer_recognition 10
      ⟨"https://rp.example.org", "https://tmi.example.org", 5,
        "https://marks.example.org/sirtfi", none, none⟩
      ⟨some [("https://other-id.example.org", [])], none⟩
      "https://ta.example.org" true ["https://ta.example.org"] true
      rfl).1 (by decide),
   (trust_mark_issuer_recognition 10
      ⟨"https://rp.example.org", "https://tmi.example.org", 5,
        "https://marks.example.org/sirtfi", none, none⟩
      ⟨some [("https://marks.example.org/sirtfi",
              ["https://recognized.example.org"])], none⟩
      "https://ta.example.org" true ["https://ta.example.org"] true
      rfl).2.1 ["https://recognized.example.org"] (by decide)
      (by decide) (by decide),
   (trust_mark_issuer_recognition 10
      ⟨"https://rp.example.org", "https://tmi.example.org", 5,
        "https://marks.example.org/sirtfi", none, none⟩
      ⟨some [("https://marks.example.org/sirtfi", [])], none⟩
      "https://ta.example.org" true ["https://ta.example.org"] true
      rfl).2.2 (by decide)⟩

/-- Claim C7 (counterexample): an unknown verb not listed in
`policy_language_crit` is not ignored — with `policy_language_crit`
present (non-empty) and no `known_policy_extensions` configured,
`Policy.verify` raises `UnknownCriticalExtension` (with an empty verb
set) although the unknown verb is non-critical, where the claim says
verification succeeds. -/
theorem policy_noncritical_unknown_cex :
    policy_verify ["regexp"] (some ["other_crit"]) none
      = Except.error (PolicyErr.unknownCriticalExtension []) ∧
    ¬ "regexp" ∈ ["other_crit"] := by
  exact ⟨rfl, by decide⟩

/-- Claim C7 (amended): an unknown verb listed in `policy_language_crit`
and not among the configured known extensions causes rejection with
`UnknownCriticalExtension` naming it; with no `policy_language_crit`
unknown verbs are ignored; with a non-empty `policy_language_crit` whose
critical extras are all covered by a non-empty
`known_policy_extensions`, verification succeeds; but with a non-empty
`policy_language_crit` and no (truthy) `known_policy_extensions`,
verification of a policy with any unknown verbs raises
`UnknownCriticalExtension` even when none of them is critical. -/
theorem policy_verify_crit_amended :
    (∀ (extra : List String) (known : Option (List String)),
        policy_verify extra none known = Except.ok ()) ∧
    (∀ (extra cs : List String) (known : Option (List String)) (v : String),
        v ∈ extra → v ∈ cs →
        (∀ ks, known = some ks → ¬ v ∈ ks) →
        ∃ s, policy_verify extra (some cs) known
              = Except.error (PolicyErr.unknownCriticalExtension s) ∧ v ∈ s) ∧
    (∀ (extra : List String) (c k : String) (cs ks : List String),
        (∀ m ∈ c :: cs, m ∈ extra → m ∈ k :: ks) →
        policy_verify extra (some (c :: cs)) (some (k :: ks)) = Except.ok ()) ∧
    (∀ (extra cs : List String), extra ≠ [] → cs ≠ [] →
        ∃ s, policy_verify extra (some cs) none
              = Except.error (PolicyErr.unknownCriticalExtension s)) := by
  refine ⟨?_, ?_, ?_, ?_⟩
  · intro extra known
    unfold policy_verify
    split <;> rfl
  · intro extra cs known v hve hvc hkn
    have hext : extra.isEmpty = false := by
      cases extra with
      | nil => cases hve
      | cons a as => rfl
    have hcs : cs.isEmpty = false := by
      cases cs with
      | nil => cases hvc
      | cons a as => rfl
    have hmusts : v ∈ cs.filter (fun w => extra.contains w) := by
      apply List.mem_filter.mpr
      exact ⟨hvc, by simpa using hve⟩
    rcases known with _ | ks
    · refine ⟨cs.filter (fun w => extra.contains w), ?_, hmusts⟩
      simp [policy_verify, hext, hcs]
    · rcases hks : ks.isEmpty with _ | _
      · have hnot : ks.contains v = false := by
          simpa using hkn ks rfl
        refine ⟨(cs.filter (fun w => extra.contains w)).filter
            (fun w => ¬ ks.contains w), ?_, ?_⟩
        · simp [policy_verify, hext, hcs, hks]
          exact ⟨v, hvc, hve, hkn ks rfl⟩
        · apply List.mem_filter.mpr
          exact ⟨hmusts, by rw [hnot]; simp⟩
      · refine ⟨cs.filter (fun w => extra.contains w), ?_, hmusts⟩
        simp [policy_verify, hext, hcs, hks]
  · intro extra c k cs ks hcov
    by_cases hext : extra.isEmpty = true
    · simp [policy_verify, hext]
    · simp [policy_verify, hext]
      constructor
      · by_cases hc : c ∈ extra
        · rcases List.mem_cons.mp (hcov c (List.mem_cons_self c cs) hc) with h | h
          · right; left; exact h
          · right; right; exact h
        · left; exact hc
      · intro x hx hxe hxk
        rcases List.mem_cons.mp
            (hcov x (List.mem_cons_of_mem c hx) hxe) with h | h
        · exact absurd h hxk
        · exact h
  · intro extra cs hne hcs
    have hext : extra.isEmpty = false := by
      cases extra with
      | nil => exact absurd rfl hne
      | cons a as => rfl
    have hcse : cs.isEmpty = false := by
      cases cs with
      | nil => exact absurd rfl hcs
      | cons a as => rfl
    refine ⟨cs.filter (fun v => extra.contains v), ?_⟩
    simp [policy_verify, hext, hcse]

/-- Witness for C7: the amended theorem instantiated — a critical unknown
verb `regexp` with no known extensions is rejected; no
`policy_language_crit` passes; a covered critical verb passes; and the
non-critical unknown verb with `policy_language_crit` present and no
known extensions is rejected. -/
theorem policy_verify_crit_amended_witness :
    policy_verify ["regexp"] none none = Except.ok () ∧
    (∃ s, policy_verify ["regexp"] (some ["regexp"]) none
          = Except.error (PolicyErr.unknownCriticalExtension s) ∧ "regexp" ∈ s) ∧
    policy_verify ["regexp"] (some ["regexp"]) (some ["regexp"]) = Except.ok () ∧
    (∃ s, policy_verify ["regexp"] (some ["other_crit"]) none
          = Except.error (PolicyErr.unknownCriticalExtension s)) :=
  ⟨policy_verify_crit_amended.1 ["regexp"] none,
   policy_verify_crit_amended.2.1 ["regexp"] ["regexp"] none "regexp"
     (by decide) (by decide) (by intro ks hk; cases hk),
   policy_verify_crit_amended.2.2.1 ["regexp"] "regexp" "regexp" [] []
     (by decide),
   policy_verify_crit_amended.2.2.2 ["regexp"] ["other_crit"]
     (by decide) (by decide)⟩

/-- Claim C2 (counterexample): per-branch failures do make the verifier
raise — a chain whose first statement has no verification keys matching
its JWS header raises `MissingKey` (verifier.py line 76), and a verified
non-leaf statement without a `jwks` raises
`ValueError('Missing signing JWKS')` (line 86). -/
theorem verifier_raises_cex :
    verify_trust_chain_inner
        [("https://ta.example.org", [⟨"RSA", "sig", "ta1"⟩])]
        [⟨⟨"https://im.example.org", "https://rp.example.org", 100, none, none⟩,
          ""⟩]
      = Except.error VerifyError.missingKey ∧
    verify_trust_chain_inner
        [("https://ta.example.org", [⟨"RSA", "sig", "ta1"⟩])]
        [⟨⟨"https://ta.example.org", "https://im.example.org", 100, none, none⟩,
          ""⟩,
         ⟨⟨"https://im.example.org", "https://rp.example.org", 100, none, none⟩,
          ""⟩]
      = Except.error VerifyError.missingSigningJwks := by
  exact ⟨rfl, rfl⟩

/-- Claim C2 (amended): constraint violations (a `meets_restrictions`
that evaluates to `False`) never make the verifier raise — the offending
chain is simply absent (`[]` is returned) — but a statement with no
verification keys matching the JWS header raises `MissingKey`, a
verified non-leaf statement missing its `jwks` raises
`ValueError('Missing signing JWKS')`, and a `KeyError` / `ValueError`
raised while accumulating naming constraints inside
`meets_restrictions` also escapes the verifier. -/
theorem verifier_error_behaviour_amended :
    (∀ (kj kj2 : KeyJar) (chain : List Token) (v : List EntityStatement),
        vLoop (chain.length - 1) kj [] chain = Except.ok (kj2, v) →
        meets_restrictions v = Except.ok false →
        verify_trust_chain_inner kj chain = Except.ok []) ∧
    (∀ (kj : KeyJar) (t : Token) (rest : List Token),
        get_jwt_verify_keys kj t = [] →
        verify_trust_chain_inner kj (t :: rest)
          = Except.error VerifyError.missingKey) ∧
    (∀ (n : Nat) (kj : KeyJar) (acc : List EntityStatement) (t : Token)
        (rest : List Token),
        t.payload.jwks = none →
        ¬ get_jwt_verify_keys kj t = [] →
        acc.length ≠ n →
        vLoop n kj acc (t :: rest)
          = Except.error VerifyError.missingSigningJwks) ∧
    (∀ (kj kj2 : KeyJar) (chain : List Token) (v : List EntityStatement)
        (e : NamingExc),
        vLoop (chain.length - 1) kj [] chain = Except.ok (kj2, v) →
        meets_restrictions v = Except.error e →
        verify_trust_chain_inner kj chain
          = Except.error (VerifyError.naming e)) := by
  refine ⟨?_, ?_, ?_, ?_⟩
  · intro kj kj2 chain v hloop hmeets
    unfold verify_trust_chain_inner
    rw [hloop]
    by_cases hv : v.isEmpty
    · exfalso
      have hveq : v = [] := List.isEmpty_iff.mp hv
      rw [hveq] at hmeets
      have h0 : meets_restrictions ([] : List EntityStatement)
          = Except.ok true := rfl
      rw [h0] at hmeets
      cases hmeets
    · show (if v.isEmpty then Except.ok [] else
            match meets_restrictions v with
            | Except.error e => Except.error (VerifyError.naming e)
            | Except.ok true => Except.ok v
            | Except.ok false => Except.ok [])
          = Except.ok []
      rw [if_neg hv, hmeets]
  · intro kj t rest hkeys
    unfold verify_trust_chain_inner vLoop
    have h1 : (get_jwt_verify_keys kj t).isEmpty = true := by
      rw [hkeys]; rfl
    rw [h1]
    rfl
  · intro n kj acc t rest hjwks hkeys hlen
    unfold vLoop
    have h1 : (get_jwt_verify_keys kj t).isEmpty = false := by
      rcases hk : get_jwt_verify_keys kj t with _ | ⟨a, as⟩
      · exact absurd hk hkeys
      · rfl
    rw [h1]
    show (match t.payload.jwks with
          | none =>
              if acc.length ≠ n then Except.error VerifyError.missingSigningJwks
              else vLoop n kj (acc ++ [t.payload]) rest
          | some jwksKeys =>
              vLoop n (addKeyBundle kj t.payload.sub jwksKeys)
                (acc ++ [t.payload]) rest)
        = Except.error VerifyError.missingSigningJwks
    rw [hjwks]
    show (if acc.length ≠ n then Except.error VerifyError.missingSigningJwks
          else vLoop n kj (acc ++ [t.payload]) rest)
        = Except.error VerifyError.missingSigningJwks
    rw [if_pos hlen]
  · intro kj kj2 chain v e hloop hmeets
    unfold verify_trust_chain_inner
    rw [hloop]
    by_cases hv : v.isEmpty
    · exfalso
      have hveq : v = [] := List.isEmpty_iff.mp hv
      rw [hveq] at hmeets
      have h0 : meets_restrictions ([] : List EntityStatement)
          = Except.ok true := rfl
      rw [h0] at hmeets
      cases hmeets
    · show (if v.isEmpty then Except.ok [] else
            match meets_restrictions v with
            | Except.error e2 => Except.error (VerifyError.naming e2)
            | Except.ok true => Except.ok v
            | Except.ok false => Except.ok [])
          = Except.error (VerifyError.naming e)
      rw [if_neg hv, hmeets]

/-- Witness for C2: the amended theorem applied to concrete inputs — a
chain violating `max_path_length` yields `ok []`; a chain with no
matching keys yields `MissingKey`; a non-leaf statement without `jwks`
yields the `ValueError`; and a chain whose accumulated `permitted` list
meets a later `naming_constraints` without a `permitted` key propagates
the `KeyError` of `add_constraints`. -/
theorem verifier_error_behaviour_amended_witness :
    verify_trust_chain_inner
        [("https://ta.example.org", [⟨"RSA", "sig", "ta1"⟩])]
        [⟨⟨"https://ta.example.org", "https://im.example.org", 100,
            some [⟨"RSA", "sig", "im1"⟩], some ⟨some (-1), none⟩⟩, ""⟩,
         ⟨⟨"https://im.example.org", "https://rp.example.org", 100,
            some [⟨"RSA", "sig", "rp1"⟩], none⟩, ""⟩]
      = Except.ok [] ∧
    verify_trust_chain_inner
        [("https://ta.example.org", [⟨"RSA", "sig", "ta1"⟩])]
        [⟨⟨"https://unknown.example.org", "https://rp.example.org", 100,
            none, none⟩, ""⟩]
      = Except.error VerifyError.missingKey ∧
    vLoop 1 [("https://ta.example.org", [⟨"RSA", "sig", "ta1"⟩])] []
        [⟨⟨"https://ta.example.org", "https://im.example.org", 100,
            none, none⟩, ""⟩]
      = Except.error VerifyError.missingSigningJwks ∧
    verify_trust_chain_inner
        [("https://ta.example.org", [⟨"RSA", "sig", "ta1"⟩])]
        [⟨⟨"https://ta.example.org", "https://a.example.org", 100,
            some [⟨"RSA", "sig", "a1"⟩],
            some ⟨some 5, some ⟨some ["https://a.example.org"], none⟩⟩⟩, ""⟩,
         ⟨⟨"https://a.example.org", "https://b.example.org", 100,
            some [⟨"RSA", "sig", "b1"⟩],
            some ⟨none, some ⟨none, some ["https://b.example.org"]⟩⟩⟩, ""⟩,
         ⟨⟨"https://b.example.org", "https://rp.example.org", 100,
            some [⟨"RSA", "sig", "rp1"⟩], none⟩, ""⟩]
      = Except.error (VerifyError.naming NamingExc.keyError) :=
  ⟨verifier_error_behaviour_amended.1
      [("https://ta.example.org", [⟨"RSA", "sig", "ta1"⟩])]
      [("https://rp.example.org", [⟨"RSA", "sig", "rp1"⟩]),
       ("https://im.example.org", [⟨"RSA", "sig", "im1"⟩]),
       ("https://ta.example.org", [⟨"RSA", "sig", "ta1"⟩])]
      [⟨⟨"https://ta.example.org", "https://im.example.org", 100,
          some [⟨"RSA", "sig", "im1"⟩], some ⟨some (-1), none⟩⟩, ""⟩,
       ⟨⟨"https://im.example.org", "https://rp.example.org", 100,
          some [⟨"RSA", "sig", "rp1"⟩], none⟩, ""⟩]
      [⟨"https://ta.example.org", "https://im.example.org", 100,
          some [⟨"RSA", "sig", "im1"⟩], some ⟨some (-1), none⟩⟩,
       ⟨"https://im.example.org", "https://rp.example.org", 100,
          some [⟨"RSA", "sig", "rp1"⟩], none⟩]
      rfl rfl,
   verifier_error_behaviour_amended.2.1
      [("https://ta.example.org", [⟨"RSA", "sig", "ta1"⟩])]
      ⟨⟨"https://unknown.example.org", "https://rp.example.org", 100,
          none, none⟩, ""⟩ [] rfl,
   verifier_error_behaviour_amended.2.2.1 1
      [("https://ta.example.org", [⟨"RSA", "sig", "ta1"⟩])] []
      ⟨⟨"https://ta.example.org", "https://im.example.org", 100,
          none, none⟩, ""⟩ []
      rfl (by intro h; cases h) (by decide),
   verifier_error_behaviour_amended.2.2.2
      [("https://ta.example.org", [⟨"RSA", "sig", "ta1"⟩])]
      [("https://rp.example.org", [⟨"RSA", "sig", "rp1"⟩]),
       ("https://b.example.org", [⟨"RSA", "sig", "b1"⟩]),
       ("https://a.example.org", [⟨"RSA", "sig", "a1"⟩]),
       ("https://ta.example.org", [⟨"RSA", "sig", "ta1"⟩])]
      [⟨⟨"https://ta.example.org", "https://a.example.org", 100,
          some [⟨"RSA", "sig", "a1"⟩],
          some ⟨some 5, some ⟨some ["https://a.example.org"], none⟩⟩⟩, ""⟩,
       ⟨⟨"https://a.example.org", "https://b.example.org", 100,
          some [⟨"RSA", "sig", "b1"⟩],
          some ⟨none, some ⟨none, some ["https://b.example.org"]⟩⟩⟩, ""⟩,
       ⟨⟨"https://b.example.org", "https://rp.example.org", 100,
          some [⟨"RSA", "sig", "rp1"⟩], none⟩, ""⟩]
      [⟨"https://ta.example.org", "https://a.example.org", 100,
          some [⟨"RSA", "sig", "a1"⟩],
          some ⟨some 5, some ⟨some ["https://a.example.org"], none⟩⟩⟩,
       ⟨"https://a.example.org", "https://b.example.org", 100,
          some [⟨"RSA", "sig", "b1"⟩],
          some ⟨none, some ⟨none, some ["https://b.example.org"]⟩⟩⟩,
       ⟨"https://b.example.org", "https://rp.example.org", 100,
          some [⟨"RSA", "sig", "rp1"⟩], none⟩]
      NamingExc.keyError rfl (by decide)⟩

/-- The constraint-checking loop over a concatenation: run the first
part, then continue from its final state (an early `False` or a raised
exception propagates). -/
theorem constraintsLoop_append (l1 l2 : List EntityStatement) :
    ∀ (cur : Int) (asg : Bool) (nc : SConstraintsNaming),
      constraintsLoop (l1 ++ l2) cur asg nc
        = match constraintsLoop l1 cur asg nc with
          | Except.error e => Except.error e
          | Except.ok none => Except.ok none
          | Except.ok (some s) => constraintsLoop l2 s.1 s.2.1 s.2.2 := by
  induction l1 with
  | nil => intro cur asg nc; rfl
  | cons st rest ih =>
      intro cur asg nc
      rw [List.cons_append]
      rcases hc : st.constraints with _ | c
      · by_cases h1 : cur < 0
        · simp only [constraintsLoop, hc, if_pos h1]
        · rcases hv : namingViolation st.sub nc with e | b
          · simp only [constraintsLoop, hc, if_neg h1, hv]
          · cases b
            · simp only [constraintsLoop, hc, if_neg h1, hv, ih]
            · simp only [constraintsLoop, hc, if_neg h1, hv]
      · by_cases h1 : calculate_path_length c cur asg < 0
        · simp only [constraintsLoop, hc, if_pos h1]
        · rcases hu : update_naming_constraints c nc with e | nc2
          · simp only [constraintsLoop, hc, if_neg h1, hu]
          · rcases hv : namingViolation st.sub nc2 with e | b
            · simp only [constraintsLoop, hc, if_neg h1, hu, hv]
            · cases b
              · simp only [constraintsLoop, hc, if_neg h1, hu, hv, ih]
              · simp only [constraintsLoop, hc, if_neg h1, hu, hv]

/-- Claim C5: during constraint checking anchor-to-leaf, a statement with
constraints but no `max_path_length` decrements the running state; the
first `max_path_length` fixes the ceiling; a subsequent `max_path_length`
is admitted only below the decremented state (an attempted increase
yields `-1`); and whenever the computed value becomes negative at some
non-leaf statement, `meets_restrictions` returns `False` for the chain. -/
theorem max_path_length_constraint :
    (∀ (c : SConstraints) (cur : Int) (asg : Bool),
        c.max_path_length = none →
        calculate_path_length c cur asg = cur - 1) ∧
    (∀ (c : SConstraints) (cur m : Int),
        c.max_path_length = some m → 0 ≤ m →
        calculate_path_length c cur false = m) ∧
    (∀ (c : SConstraints) (cur m : Int),
        c.max_path_length = some m → 0 ≤ m →
        calculate_path_length c cur true
          = if cur - 1 < m then -1 else m) ∧
    (∀ (pre : List EntityStatement) (st mid : EntityStatement)
        (post : List EntityStatement) (cur : Int) (asg : Bool)
        (nc : SConstraintsNaming) (c : SConstraints),
        constraintsLoop pre 0 false ⟨none, none⟩
          = Except.ok (some (cur, asg, nc)) →
        st.constraints = some c →
        calculate_path_length c cur asg < 0 →
        meets_restrictions (pre ++ st :: mid :: post) = Except.ok false) := by
  refine ⟨?_, ?_, ?_, ?_⟩
  · intro c cur asg h
    unfold calculate_path_length
    rw [h]
  · intro c cur m h hm
    unfold calculate_path_length
    rw [h]
    show (if 0 ≤ m then if false = true then _ else m else (-1 : Int)) = m
    rw [if_pos hm]
    rfl
  · intro c cur m h hm
    unfold calculate_path_length
    rw [h]
    show (if 0 ≤ m then if true = true then (if cur - 1 < m then -1 else m)
          else m else (-1 : Int)) = if cur - 1 < m then -1 else m
    rw [if_pos hm]
    rfl
  · intro pre st mid post cur asg nc c hloop hc hneg
    have hdrop : (pre ++ st :: mid :: post).dropLast
        = pre ++ st :: (mid :: post).dropLast := by
      rw [List.dropLast_append_of_ne_nil pre (by simp)]
      rfl
    have hstep : constraintsLoop (pre ++ st :: (mid :: post).dropLast)
        0 false ⟨none, none⟩ = Except.ok none := by
      rw [constraintsLoop_append, hloop]
      show constraintsLoop (st :: (mid :: post).dropLast) cur asg nc
          = Except.ok none
      simp only [constraintsLoop, hc]
      rw [if_pos hneg]
    unfold meets_restrictions
    rw [hdrop, hstep]

/-- Witness for C5: concrete instances of the four behaviours — a
decrement, a ceiling fix, a rejected increase, and a chain failing
`meets_restrictions` when the state turns negative. -/
theorem max_path_length_constraint_witness :
    calculate_path_length ⟨none, none⟩ 3 true = 2 ∧
    calculate_path_length ⟨some 5, none⟩ 3 false = 5 ∧
    calculate_path_length ⟨some 5, none⟩ 3 true
      = (if (3 : Int) - 1 < 5 then -1 else 5) ∧
    meets_restrictions
        [⟨"https://ta.example.org", "https://im.example.org", 100, none,
            some ⟨some 0, none⟩⟩,
         ⟨"https://im.example.org", "https://op.example.org", 100, none,
            some ⟨none, none⟩⟩,
         ⟨"https://op.example.org", "https://rp.example.org", 100, none,
            none⟩]
      = Except.ok false :=
  ⟨max_path_length_constraint.1 ⟨none, none⟩ 3 true rfl,
   max_path_length_constraint.2.1 ⟨some 5, none⟩ 3 5 rfl (by decide),
   max_path_length_constraint.2.2.1 ⟨some 5, none⟩ 3 5 rfl (by decide),
   max_path_length_constraint.2.2.2
      [⟨"https://ta.example.org", "https://im.example.org", 100, none,
          some ⟨some 0, none⟩⟩]
      ⟨"https://im.example.org", "https://op.example.org", 100, none,
          some ⟨none, none⟩⟩
      ⟨"https://op.example.org", "https://rp.example.org", 100, none, none⟩
      [] 0 true ⟨none, none⟩ ⟨none, none⟩
      (by decide) rfl (by decide)⟩

/-- Appending a fresh binding to an association list: the lookup falls
through to the new binding only when the key was absent. -/
theorem alookup_append_single {κ α : Type} [DecidableEq κ]
    (l : List (κ × α)) (k : κ) (v : α) (g : κ) :
    alookup (l ++ [(k, v)]) g
      = match alookup l g with
        | some x => some x
        | none => if k = g then some v else none := by
  induction l with
  | nil => rfl
  | cons p rest ih =>
      by_cases h : p.1 = g
      · rw [List.cons_append]
        simp only [alookup, if_pos h]
      · rw [List.cons_append]
        simp only [alookup, if_neg h]
        exact ih

/-- Lookup after an association-list update: the updated key sees the new
value (when previously bound), other keys are untouched. -/
theorem alookup_assocSet {κ α : Type} [DecidableEq κ]
    (l : List (κ × α)) (k : κ) (v : α) (g : κ) :
    alookup (assocSet l k v) g
      = if g = k then (alookup l k).map (fun _ => v) else alookup l g := by
  induction l with
  | nil =>
      simp only [assocSet, alookup]
      split <;> rfl
  | cons p rest ih =>
      simp only [assocSet]
      by_cases h1 : p.1 = k
      · rw [if_pos h1]
        by_cases h2 : g = k
        · subst h2
          simp [alookup, h1, ih]
        · have h3 : ¬ p.1 = g := by rw [h1]; exact fun hh => h2 hh.symm
          have h4 : ¬ k = g := fun hh => h2 hh.symm
          simp only [alookup]
          rw [if_neg h4, ih]
          simp [h2, h3]
      · rw [if_neg h1]
        by_cases h3 : p.1 = g
        · have h2 : ¬ g = k := fun hh => h1 (by rw [h3, hh])
          simp [alookup, h3, h2]
        · simp [alookup, h3, h1, ih]

/-- `_exp_rank` comparison is irreflexive. -/
theorem exp_rank_gt_irrefl (a : Option Int) : exp_rank_gt a a = false := by
  cases a
  · rfl
  · simp [exp_rank_gt]

/-- `_exp_rank` comparison along a chain: below-or-equal of `c` and
strictly above `c` gives strictly apart. -/
theorem exp_rank_gt_chain (a b c : Option Int)
    (h1 : exp_rank_gt a c = false) (h2 : exp_rank_gt b c = true) :
    exp_rank_gt a b = false := by
  cases a <;> cases b <;> cases c <;> first
    | (simp_all [exp_rank_gt]; omega)
    | simp_all [exp_rank_gt]

/-- The replacement test as a proposition. -/
theorem tm_beats_iff (a b : BestRec) :
    tm_beats a b = true
      ↔ (b.iat < a.iat ∨ (a.iat = b.iat ∧ exp_rank_gt a.exp b.exp = true)) := by
  simp [tm_beats]

/-- The replacement test is irreflexive: an exact duplicate never
displaces the current best. -/
theorem tm_beats_irrefl (r : BestRec) : tm_beats r r = false := by
  rw [← Bool.not_eq_true, tm_beats_iff]
  intro h
  rcases h with h | ⟨_, h⟩
  · omega
  · rw [exp_rank_gt_irrefl] at h
    cases h

/-- Nothing below the displaced best can beat its replacement. -/
theorem tm_beats_mono (x y cur : BestRec)
    (hx : tm_beats x cur = false) (hy : tm_beats y cur = true) :
    tm_beats x y = false := by
  rw [← Bool.not_eq_true, tm_beats_iff]
  rw [← Bool.not_eq_true, tm_beats_iff] at hx
  rw [tm_beats_iff] at hy
  push_neg at hx
  intro hcon
  rcases hy with hy1 | ⟨hy1, hy2⟩
  · rcases hcon with h3 | ⟨h3, _⟩ <;> omega
  · rcases hcon with h3 | ⟨h3, h4⟩
    · omega
    · have h5 : exp_rank_gt x.exp cur.exp = false := by
        have h6 := hx.2 (by omega)
        exact Bool.eq_false_iff.mpr h6
      have h7 := exp_rank_gt_chain x.exp y.exp cur.exp h5 hy2
      rw [h7] at h4
      cases h4

/-- The invariant of the selection loop: every `_best` entry is the
candidate of some processed item, no processed candidate of its group
beats it, and every group with a processed candidate is present. -/
theorem tm_fold_inv (es : Option String) (bi : Bool) (lw now : Int) :
    ∀ (items processed : List TMStoreItem)
      (best : List ((String × String) × BestRec)),
      (∀ g r, alookup best g = some r →
          (∃ it ∈ processed, item_candidate es bi lw now it = some (g, r)) ∧
          (∀ it ∈ processed, ∀ r2,
              item_candidate es bi lw now it = some (g, r2) →
              tm_beats r2 r = false)) →
      (∀ it ∈ processed, ∀ g r2,
          item_candidate es bi lw now it = some (g, r2) →
          ∃ r3, alookup best g = some r3) →
      (∀ g r, alookup (items.foldl (tm_step es bi lw now) best) g = some r →
          (∃ it ∈ processed ++ items,
              item_candidate es bi lw now it = some (g, r)) ∧
          (∀ it ∈ processed ++ items, ∀ r2,
              item_candidate es bi lw now it = some (g, r2) →
              tm_beats r2 r = false)) := by
  intro items
  induction items with
  | nil =>
      intro processed best h1 _ g r hr
      rw [List.foldl_nil] at hr
      rw [List.append_nil]
      exact h1 g r hr
  | cons it rest ih =>
      intro processed best h1 h2 g r hr
      rw [List.foldl_cons] at hr
      have hmem : processed ++ it :: rest = (processed ++ [it]) ++ rest := by
        rw [List.append_assoc]
        rfl
      rw [hmem]
      rcases hcand : item_candidate es bi lw now it with _ | gr
      · -- skipped item: the map is unchanged
        have hstep : tm_step es bi lw now best it = best := by
          unfold tm_step; rw [hcand]
        rw [hstep] at hr
        refine ih (processed ++ [it]) best ?_ ?_ g r hr
        · intro g0 r0 hl0
          obtain ⟨⟨it2, hit2, hc2⟩, hmax⟩ := h1 g0 r0 hl0
          refine ⟨⟨it2, List.mem_append_left _ hit2, hc2⟩, ?_⟩
          intro it3 hit3 r3 hc3
          rcases List.mem_append.mp hit3 with h | h
          · exact hmax it3 h r3 hc3
          · rcases List.mem_singleton.mp h with rfl
            rw [hcand] at hc3
            cases hc3
        · intro it3 hit3 g0 r3 hc3
          rcases List.mem_append.mp hit3 with h | h
          · exact h2 it3 h g0 r3 hc3
          · rcases List.mem_singleton.mp h with rfl
            rw [hcand] at hc3
            cases hc3
      · obtain ⟨g0, r0⟩ := gr
        rcases hlk : alookup best g0 with _ | cur
        · -- fresh group: append
          have hstep : tm_step es bi lw now best it = best ++ [(g0, r0)] := by
            unfold tm_step
            rw [hcand]
            show (match alookup best g0 with
                  | none => best ++ [(g0, r0)]
                  | some cur =>
                      if tm_beats r0 cur then assocSet best g0 r0 else best)
                = best ++ [(g0, r0)]
            rw [hlk]
          rw [hstep] at hr
          refine ih (processed ++ [it]) (best ++ [(g0, r0)]) ?_ ?_ g r hr
          · intro g1 r1 hl1
            rw [alookup_append_single] at hl1
            rcases hbg : alookup best g1 with _ | x
            · rw [hbg] at hl1
              have hij : g0 = g1 ∧ r0 = r1 := by
                by_cases hgg : g0 = g1
                · rw [if_pos hgg] at hl1
                  exact ⟨hgg, Option.some.inj hl1⟩
                · rw [if_neg hgg] at hl1
                  cases hl1
              obtain ⟨rfl, rfl⟩ := hij
              refine ⟨⟨it, List.mem_append_right _ (List.mem_singleton.mpr rfl),
                hcand⟩, ?_⟩
              intro it3 hit3 r3 hc3
              rcases List.mem_append.mp hit3 with h | h
              · obtain ⟨r4, hr4⟩ := h2 it3 h g0 r3 hc3
                rw [hbg] at hr4
                cases hr4
              · rcases List.mem_singleton.mp h with rfl
                rw [hcand] at hc3
                have : r3 = r0 := by
                  have h5 := Option.some.inj hc3
                  exact (congrArg Prod.snd h5).symm
                rw [this]
                exact tm_beats_irrefl r0
            · rw [hbg] at hl1
              have hx : r1 = x := (Option.some.inj hl1).symm
              subst hx
              obtain ⟨⟨it2, hit2, hc2⟩, hmax⟩ := h1 g1 r1 hbg
              have hgg : ¬ g0 = g1 := by
                intro hh
                rw [hh] at hlk
                rw [hlk] at hbg
                cases hbg
              refine ⟨⟨it2, List.mem_append_left _ hit2, hc2⟩, ?_⟩
              intro it3 hit3 r3 hc3
              rcases List.mem_append.mp hit3 with h | h
              · exact hmax it3 h r3 hc3
              · rcases List.mem_singleton.mp h with rfl
                rw [hcand] at hc3
                have h5 := Option.some.inj hc3
                exact absurd (congrArg Prod.fst h5) hgg
          · intro it3 hit3 g1 r3 hc3
            rw [alookup_append_single]
            rcases List.mem_append.mp hit3 with h | h
            · obtain ⟨r4, hr4⟩ := h2 it3 h g1 r3 hc3
              rw [hr4]
              exact ⟨r4, rfl⟩
            · rcases List.mem_singleton.mp h with rfl
              rw [hcand] at hc3
              have h5 := Option.some.inj hc3
              have hg1 : g0 = g1 := congrArg Prod.fst h5
              rw [← hg1, hlk, if_pos rfl]
              exact ⟨r0, rfl⟩
        · rcases hbt : tm_beats r0 cur with _ | _
          · -- candidate does not beat the incumbent: unchanged
            have hstep : tm_step es bi lw now best it = best := by
              unfold tm_step
              rw [hcand]
              show (match alookup best g0 with
                    | none => best ++ [(g0, r0)]
                    | some cur =>
                        if tm_beats r0 cur then assocSet best g0 r0 else best)
                  = best
              rw [hlk]
              show (if tm_beats r0 cur then assocSet best g0 r0 else best) = best
              rw [hbt]
              rfl
            rw [hstep] at hr
            refine ih (processed ++ [it]) best ?_ ?_ g r hr
            · intro g1 r1 hl1
              obtain ⟨⟨it2, hit2, hc2⟩, hmax⟩ := h1 g1 r1 hl1
              refine ⟨⟨it2, List.mem_append_left _ hit2, hc2⟩, ?_⟩
              intro it3 hit3 r3 hc3
              rcases List.mem_append.mp hit3 with h | h
              · exact hmax it3 h r3 hc3
              · rcases List.mem_singleton.mp h with rfl
                rw [hcand] at hc3
                have h5 := Option.some.inj hc3
                have hg1 : g0 = g1 := congrArg Prod.fst h5
                have hr0 : r0 = r3 := congrArg Prod.snd h5
                rw [← hg1] at hl1
                rw [hlk] at hl1
                have hcur : r1 = cur := (Option.some.inj hl1).symm
                rw [← hr0, hcur]
                exact hbt
            · intro it3 hit3 g1 r3 hc3
              rcases List.mem_append.mp hit3 with h | h
              · exact h2 it3 h g1 r3 hc3
              · rcases List.mem_singleton.mp h with rfl
                rw [hcand] at hc3
                have h5 := Option.some.inj hc3
                have hg1 : g0 = g1 := congrArg Prod.fst h5
                rw [← hg1, hlk]
                exact ⟨cur, rfl⟩
          · -- candidate displaces the incumbent
            have hstep : tm_step es bi lw now best it = assocSet best g0 r0 := by
              unfold tm_step
              rw [hcand]
              show (match alookup best g0 with
                    | none => best ++ [(g0, r0)]
                    | some cur =>
                        if tm_beats r0 cur then assocSet best g0 r0 else best)
                  = assocSet best g0 r0
              rw [hlk]
              show (if tm_beats r0 cur then assocSet best g0 r0 else best)
                  = assocSet best g0 r0
              rw [if_pos hbt]
            rw [hstep] at hr
            refine ih (processed ++ [it]) (assocSet best g0 r0) ?_ ?_ g r hr
            · intro g1 r1 hl1
              rw [alookup_assocSet] at hl1
              by_cases hgg : g1 = g0
              · rw [if_pos hgg, hlk] at hl1
                have hr1 : r1 = r0 := (Option.some.inj hl1).symm
                subst hr1
                subst hgg
                refine ⟨⟨it, List.mem_append_right _ (List.mem_singleton.mpr rfl),
                  hcand⟩, ?_⟩
                intro it3 hit3 r3 hc3
                rcases List.mem_append.mp hit3 with h | h
                · obtain ⟨_, hmax⟩ := h1 g1 cur hlk
                  exact tm_beats_mono r3 r1 cur (hmax it3 h r3 hc3) hbt
                · rcases List.mem_singleton.mp h with rfl
                  rw [hcand] at hc3
                  have h5 := Option.some.inj hc3
                  have hr0 : r1 = r3 := congrArg Prod.snd h5
                  rw [← hr0]
                  exact tm_beats_irrefl r1
              · rw [if_neg hgg] at hl1
                obtain ⟨⟨it2, hit2, hc2⟩, hmax⟩ := h1 g1 r1 hl1
                refine ⟨⟨it2, List.mem_append_left _ hit2, hc2⟩, ?_⟩
                intro it3 hit3 r3 hc3
                rcases List.mem_append.mp hit3 with h | h
                · exact hmax it3 h r3 hc3
                · rcases List.mem_singleton.mp h with rfl
                  rw [hcand] at hc3
                  have h5 := Option.some.inj hc3
                  exact absurd (congrArg Prod.fst h5).symm hgg
            · intro it3 hit3 g1 r3 hc3
              rw [alookup_assocSet]
              by_cases hgg : g1 = g0
              · rw [if_pos hgg, hlk]
                exact ⟨r0, rfl⟩
              · rw [if_neg hgg]
                rcases List.mem_append.mp hit3 with h | h
                · exact h2 it3 h g1 r3 hc3
                · rcases List.mem_singleton.mp h with rfl
                  rw [hcand] at hc3
                  have h5 := Option.some.inj hc3
                  exact absurd (congrArg Prod.fst h5).symm hgg

/-- Claim C6: the abfile trust-marks source filters out expired marks and
marks with `iat` beyond `now + leeway`; every mark it keeps per group
(`(trust_mark_type, iss)`, or type alone when issuer grouping is off) is
the candidate of some store item that no other accepted candidate of the
group beats — newest `iat` first, and on ties a higher `_exp_rank`
(absent `exp` over present, else the later `exp`).  In particular, for
four marks of one group with iat 800 (exp 3600), 900 (exp 1200),
900 (no exp), 850 (exp 4000) at `now = 1000` it selects the
`iat = 900`, no-`exp` mark. -/
theorem trust_marks_source_selection :
    (∀ (es : Option String) (bi : Bool) (lw now : Int)
        (items : List TMStoreItem) (g : String × String) (r : BestRec),
        alookup (tm_best_fold es bi lw now items) g = some r →
        (∃ it ∈ items, item_candidate es bi lw now it = some (g, r)) ∧
        (∀ it ∈ items, ∀ r2,
            item_candidate es bi lw now it = some (g, r2) →
            tm_beats r2 r = false)) ∧
    (∀ (es : Option String) (bi : Bool) (lw now : Int) (it : TMStoreItem)
        (p : TMPayload) (e : Int),
        it.payload = some p → p.exp = some e → e ≤ now →
        item_candidate es bi lw now it = none) ∧
    (∀ (es : Option String) (bi : Bool) (lw now : Int) (it : TMStoreItem)
        (p : TMPayload) (i : Int),
        it.payload = some p → p.iat = some i → i > now + lw →
        item_candidate es bi lw now it = none) ∧
    trust_marks_from_abfile none true 60 1000 scenarioItems
      = [("T", "jws3")] := by
  refine ⟨?_, ?_, ?_, by decide⟩
  · intro es bi lw now items g r hr
    have h := tm_fold_inv es bi lw now items [] []
      (fun g0 r0 h0 => by simp [alookup] at h0)
      (fun it hit => absurd hit (List.not_mem_nil it))
      g r hr
    simpa using h
  · intro es bi lw now it p e hp he hnow
    rcases it with ⟨tmk, ot, pl⟩
    have hpl : pl = some p := hp
    subst hpl
    rcases p with ⟨tmt, iss, sub, iat, exp⟩
    have hexp : exp = some e := he
    subst hexp
    rcases tmk with _ | jws
    · rfl
    · simp [item_candidate, hnow]
      intro _
      split <;> rfl
  · intro es bi lw now it p i hp hi hfut
    rcases it with ⟨tmk, ot, pl⟩
    have hpl : pl = some p := hp
    subst hpl
    rcases p with ⟨tmt, iss, sub, iat, exp⟩
    have hiat : iat = some i := hi
    subst hiat
    rcases tmk with _ | jws
    · rfl
    · simp [item_candidate, hfut]
      intro _
      split
      · simp_all
      · rfl

/-- Witness for C6: the selection theorem applied to the four-mark
scenario group, to a mark expired at `now = 1000`, and to a mark with
`iat` beyond the leeway window. -/
theorem trust_marks_source_selection_witness :
    ((∃ it ∈ scenarioItems, item_candidate none true 60 1000 it
        = some (("T", "I"), ⟨"T", "jws3", 900, none⟩)) ∧
     (∀ it ∈ scenarioItems, ∀ r2,
        item_candidate none true 60 1000 it = some (("T", "I"), r2) →
        tm_beats r2 ⟨"T", "jws3", 900, none⟩ = false)) ∧
    item_candidate none true 60 1000
        ⟨some "jws9", none,
         some ⟨some "T", some "I", some "S", some 900, some 900⟩⟩ = none ∧
    item_candidate none true 60 1000
        ⟨some "jws8", none,
         some ⟨some "T", some "I", some "S", some 2000, none⟩⟩ = none :=
  ⟨trust_marks_source_selection.1 none true 60 1000 scenarioItems
      ("T", "I") ⟨"T", "jws3", 900, none⟩ (by decide),
   trust_marks_source_selection.2.1 none true 60 1000
      ⟨some "jws9", none,
       some ⟨some "T", some "I", some "S", some 900, some 900⟩⟩
      ⟨some "T", some "I", some "S", some 900, some 900⟩ 900
      rfl rfl (by decide),
   trust_marks_source_selection.2.2.1 none true 60 1000
      ⟨some "jws8", none,
       some ⟨some "T", some "I", some "S", some 2000, none⟩⟩
      ⟨some "T", some "I", some "S", some 2000, none⟩ 2000
      rfl rfl (by decide)⟩

end Fedservice
